import Mathlib

/-!
Verification development for the wiggle-puppy supervision loop
(`wiggle-puppy-core`: `runner.rs`, `agent.rs`, `prd.rs`, `config.rs`,
`event.rs`, `error.rs`).

The embedding models the pure decision logic of the crate.  I/O and time
are abstracted into an explicit `World` of oracles: the result of each
prompt read, each checklist (PRD) load, each cancellation-flag read, and
the behaviour of each spawned agent process (its interleaved output lines
and its exit/timeout fate).  Wall-clock durations (the `duration_secs`
fields) are not modelled; sleeps are recorded as the number of whole
seconds the code would pass to the sleep call.  Rust `f64` backoff
arithmetic is modelled over `ℚ`; the `as u64` cast is modelled as
truncation toward zero clamped at 0 (the saturation at `u64::MAX` is not
modelled — all values of interest are tiny).
-/

namespace WigglePuppy

/-- Matching of a pattern at the head of a character list
(the helper underneath the model of Rust `str::contains`). -/
def charsMatchAt : List Char → List Char → Bool
  | [], _ => true
  | _ :: _, [] => false
  | p :: ps, c :: cs => p == c && charsMatchAt ps cs

/-- Substring search on character lists: does `pat` occur (contiguously)
anywhere in `s`?  The empty pattern occurs in every list, matching Rust
`str::contains` semantics. -/
def charsContain (s pat : List Char) : Bool :=
  match s with
  | [] => pat.isEmpty
  | _ :: rest => charsMatchAt pat s || charsContain rest pat

/-- Model of Rust `str::contains(pattern)`: literal, case-sensitive,
untrimmed substring test. -/
def strContains (s pat : String) : Bool :=
  charsContain s.toList pat.toList

/-- Source `agent.rs`: `AgentOutput` — output captured from an agent run.
The `duration_secs` field of the source is omitted (wall-clock time is
not modelled). -/
structure AgentOutput where
  stdout : String
  stderr : String
  combined : String
  exit_code : Option Int
  deriving Repr, DecidableEq

/-- Source `agent.rs`: `AgentOutput::empty` — the sentinel used when an
iteration exhausts its retries (all text fields empty, no exit code). -/
def AgentOutput.empty : AgentOutput :=
  { stdout := "", stderr := "", combined := "", exit_code := none }

/-- Source `agent.rs`: `AgentOutput::contains` — substring test on the combined
transcript. -/
def AgentOutput.contains (o : AgentOutput) (phrase : String) : Bool :=
  strContains o.combined phrase

/-- Source `prd.rs`: `Story` — a single story in the PRD. -/
structure Story where
  id : String
  title : String
  description : String
  priority : Nat
  passes : Bool
  acceptance_criteria : List String
  depends_on : List String
  deriving Repr, DecidableEq

/-- Source `prd.rs`: `Prd` — a product requirements document. -/
structure Prd where
  name : String
  branch_name : String
  description : String
  stories : List Story
  deriving Repr, DecidableEq

/-- Source `prd.rs`: `Prd::is_complete` — all stories pass. -/
def Prd.is_complete (p : Prd) : Bool :=
  p.stories.all (fun s => s.passes)

/-- Source `event.rs`: `CompletionReason`. -/
inductive CompletionReason where
  | allStoriesComplete
  | completionPhraseDetected
  | both
  deriving Repr, DecidableEq

/-- Source `event.rs`: `StopReason`.  The `circuitBreakerTriggered` variant is
used by `runner.rs` and listed in the spec's event contract but is
missing from the `event.rs` snapshot under `src/`; it is modelled from
the spec and from its construction sites in `runner.rs`. -/
inductive StopReason where
  | maxIterations
  | cancelled
  | fatalError (message : String)
  | circuitBreakerTriggered (consecutive_failures : Nat)
  deriving Repr, DecidableEq

/-- Source `event.rs`: `Event`.  The `retryScheduled`, `agentErrorDetectedEv`
and `agentTimeoutEv` variants are sent by `runner.rs`/`agent.rs` and
listed in the spec's event contract but are missing from the `event.rs`
snapshot under `src/`; they are modelled from the spec and from their
construction sites.  `duration_secs` payloads are omitted (wall-clock
time is not modelled). -/
inductive Event where
  | started (max_iterations : Nat)
  | iterationStarted (iteration : Nat) (max_iterations : Nat)
  | agentOutputEv (text : String) (is_stderr : Bool)
  | agentFinished (exit_code : Option Int)
  | storyCompleted (story_id : String) (story_title : String)
  | iterationFinished (iteration : Nat) (completion_detected : Bool)
  | prdUpdated (completed : Nat) (total : Nat)
  | progress (message : String)
  | warning (message : String)
  | errorEv (message : String)
  | retryScheduled (backoff_secs : Nat) (attempt : Nat) (max_retries : Nat)
  | agentErrorDetectedEv (pattern : String)
  | agentTimeoutEv (timeout_secs : Nat)
  | completed (iterations : Nat) (reason : CompletionReason)
  | stopped (iterations : Nat) (reason : StopReason)
  deriving Repr, DecidableEq

/-- Source `error.rs`: the variants of `Error` that can be produced by
`Agent::run`.  `agentErrorDetected` and `agentTimeout` are constructed
by `agent.rs` and matched by `runner.rs` but are missing from the
`error.rs` snapshot under `src/`; they are modelled from the spec's
failure taxonomy and their use sites. -/
inductive AgentErr where
  | agentErrorDetected (pattern : String)
  | agentTimeout (timeout_secs : Nat)
  | agentNotFound (command : String)
  | agentError (message : String)
  deriving Repr, DecidableEq

/-- Display strings of `AgentErr` (from the `thiserror` attributes in
`error.rs`; the source wraps the command name of `agentNotFound` in
single quotes, which are omitted here).  Only the non-retryable variants
can reach a formatted message in `runner.rs`. -/
def AgentErr.display : AgentErr → String
  | .agentErrorDetected p => "agent error detected: " ++ p
  | .agentTimeout t => "agent timed out after " ++ toString t ++ " seconds"
  | .agentNotFound c => "agent command not found: " ++ c
  | .agentError m => "agent execution failed: " ++ m

/-- Source `agent.rs`: `Agent` — the wrapped external command. -/
structure Agent where
  command : String
  args : List String
  error_patterns : List String
  timeout_secs : Nat
  deriving Repr, DecidableEq

/-- The fate of the process wait phase in `Agent::run`, supplied by the
environment. -/
inductive WaitResult where
  | exited (code : Option Int)
  | waitErr (msg : String)
  | timedOut
  deriving Repr, DecidableEq

/-- Environment-supplied behaviour of one spawned agent process: either
the spawn fails, or the process produces a list of lines — tagged
`(is_stderr, text)` in the order the `tokio::select!` read loop services
them — followed by a wait-phase fate. -/
inductive AgentScript where
  | spawnNotFound
  | spawnFail (msg : String)
  | runs (lines : List (Bool × String)) (wait : WaitResult)
  deriving Repr, DecidableEq

/-- Source `agent.rs`: the per-line error-pattern scan of the read loop.  Each
pattern that occurs in the line overwrites the recorded detection, so
the result is the last matching pattern in pattern-list order (or the
previous detection when the line matches nothing). -/
def updateDetected (patterns : List String) (d : Option String) (text : String) :
    Option String :=
  patterns.foldl (fun acc p => if strContains text p then some p else acc) d

/-- Source `agent.rs`: the detection state after the whole read loop has
processed `lines`. -/
def linesDetect (patterns : List String) (lines : List (Bool × String)) :
    Option String :=
  lines.foldl (fun d l => updateDetected patterns d l.2) none

/-- The output event for one serviced line (`Event::agent_output` for
stdout, `Event::agent_stderr` for stderr). -/
def lineEvent (l : Bool × String) : Event :=
  Event.agentOutputEv l.2 l.1

/-- Text of the lines of one stream, joined with newlines as in
`AgentOutput { stdout: stdout_lines.join("\n"), .. }`. -/
def joinLines (lines : List String) : String :=
  String.intercalate "\n" lines

/-- Source `agent.rs`: `Agent::run`, over an environment-supplied script.
Returns the result together with the events the call sends.  Mirrors the
source: spawn failure is classified (`NotFound` vs other); the read loop
services lines in arrival order, accumulating the per-stream and
combined transcripts, emitting one output event per line and folding the
error-pattern detection; after the loop, a recorded detection kills the
process and returns the detected-error failure; otherwise the wait phase
either times out (kill, timeout failure), fails (generic failure), or
yields an exit status (success). -/
def agentRun (a : Agent) (s : AgentScript) : Except AgentErr AgentOutput × List Event :=
  match s with
  | .spawnNotFound => (.error (.agentNotFound a.command), [])
  | .spawnFail msg =>
      (.error (.agentError ("failed to spawn agent process: " ++ msg)), [])
  | .runs lines wait =>
      let lineEvents := lines.map lineEvent
      match linesDetect a.error_patterns lines with
      | some p =>
          (.error (.agentErrorDetected p), lineEvents ++ [Event.agentErrorDetectedEv p])
      | none =>
          match wait with
          | .timedOut =>
              (.error (.agentTimeout a.timeout_secs),
               lineEvents ++ [Event.agentTimeoutEv a.timeout_secs])
          | .waitErr m => (.error (.agentError ("wait failed: " ++ m)), lineEvents)
          | .exited code =>
              (.ok { stdout := joinLines ((lines.filter (fun l => !l.1)).map (·.2))
                     stderr := joinLines ((lines.filter (fun l => l.1)).map (·.2))
                     combined := joinLines (lines.map (·.2))
                     exit_code := code },
               lineEvents ++ [Event.agentFinished code])

/-- Source `config.rs`: `Config`.  `delay` is kept as a rational number of
seconds (only its zeroness is observable in the model);
`backoff_multiplier` is an `f64` in the source, modelled over `ℚ`. -/
structure Config where
  agent_command : String
  agent_args : List String
  max_iterations : Nat
  delay : ℚ
  completion_phrase : String
  prd_path : Option String
  prompt_path : Option String
  prompt_text : Option String
  progress_path : Option String
  auto_completion_instruction : Bool
  agent_timeout_secs : Nat
  error_patterns : List String
  max_retries : Nat
  initial_backoff_secs : Nat
  backoff_multiplier : ℚ
  circuit_breaker_threshold : Nat

/-- Source `config.rs`: `Config::default`. -/
def Config.base : Config :=
  { agent_command := "claude"
    agent_args := ["-p"]
    max_iterations := 20
    delay := 2
    completion_phrase := "<promise>COMPLETE</promise>"
    prd_path := none
    prompt_path := none
    prompt_text := none
    progress_path := none
    auto_completion_instruction := true
    agent_timeout_secs := 900
    error_patterns :=
      ["Error: No messages returned",
       "This error originated either by throwing inside of an async function",
       "@anthropic-ai/claude-code",
       "The promise rejected with the reason:"]
    max_retries := 3
    initial_backoff_secs := 5
    backoff_multiplier := 2
    circuit_breaker_threshold := 5 }

/-- Source `runner.rs`, `Runner::run`: the `Agent::new(..)` call built from the
configuration. -/
def Config.agent (cfg : Config) : Agent :=
  { command := cfg.agent_command
    args := cfg.agent_args
    error_patterns := cfg.error_patterns
    timeout_secs := cfg.agent_timeout_secs }

/-- Model of the Rust `as u64` cast applied to a nonnegative-or-negative
`f64`: truncation toward zero, with negative values clamped to `0`.
(`Int.div` truncates toward zero; saturation at `u64::MAX` is not
modelled.) -/
def ratTruncToNat (q : ℚ) : Nat :=
  (Int.tdiv q.num q.den).toNat

/-- Source `runner.rs`: `calculate_backoff` — exponential backoff in whole
seconds: `(initial_backoff_secs as f64 * multiplier.powi(attempt-1)) as u64`. -/
def calculate_backoff (attempt : Nat) (cfg : Config) : Nat :=
  ratTruncToNat ((cfg.initial_backoff_secs : ℚ) * cfg.backoff_multiplier ^ (attempt - 1))

example : strContains "hello world" "lo wo" = true := by decide
example : strContains "hello" "" = true := by decide
example : strContains "" "" = true := by decide
example : strContains "" "x" = false := by decide
example : strContains "abc" "ABC" = false := by decide

/-- The runner's interaction with the outside world, one oracle per
suspension point of `Runner::run`: the cancellation flag as read at the
top of the loop when the iteration counter is `n`
(`cancelTop n`) and as read after iteration `n`'s inter-iteration delay
(`cancelAfterDelay n`); the result of `Config::get_prompt` on iteration
`n` (`Except.error` carries the formatted error message); the result of
`Prd::load` before and after iteration `n`'s agent run; and the script
of the agent process spawned on iteration `n`, attempt `a` (`a` is the
value of `retry_attempt` at the call, starting at 0). -/
structure World where
  cancelTop : Nat → Bool
  cancelAfterDelay : Nat → Bool
  promptResult : Nat → Except String String
  prdBefore : Nat → Except String Prd
  prdAfter : Nat → Except String Prd
  script : Nat → Nat → AgentScript

/-- Source `runner.rs`, `Runner::run`: the PRD check shared by the
before-agent and after-agent positions.  If no PRD path is configured
the result is `false` with no events; a successful load emits
`PrdUpdated` and returns `Prd::is_complete`; a load failure emits a
warning (whose text differs between the two positions) and counts as
incomplete. -/
def prdCheck (cfg : Config) (loaded : Except String Prd) (after : Bool) :
    Bool × List Event :=
  match cfg.prd_path with
  | none => (false, [])
  | some _ =>
      match loaded with
      | .ok prd =>
          (prd.is_complete,
           [Event.prdUpdated ((prd.stories.filter (fun s => s.passes)).length)
              prd.stories.length])
      | .error e =>
          (false,
           [Event.warning
              ((if after then "failed to read PRD after agent: "
                else "failed to read PRD: ") ++ e)])

/-- The two error variants `Runner::run` retries
(`Error::AgentErrorDetected` and `Error::AgentTimeout`); every other
`Agent::run` failure is fatal. -/
def retryableResult : Except AgentErr AgentOutput → Bool
  | .error (.agentErrorDetected _) => true
  | .error (.agentTimeout _) => true
  | _ => false

/-- Source `runner.rs`: `Outcome` — the return value of `Runner::run`. -/
inductive Outcome where
  | completed (iterations : Nat) (reason : CompletionReason)
  | stopped (iterations : Nat) (reason : StopReason)
  deriving Repr, DecidableEq

/-- Source `runner.rs`: `Outcome::iterations`. -/
def Outcome.iterations : Outcome → Nat
  | .completed n _ => n
  | .stopped n _ => n

/-- Result of the inner attempt-with-retry loop of `Runner::run`:
either an `AgentOutput` to hand to the completion check together with
the updated consecutive-failure counter, or a terminal outcome (circuit
breaker or fatal error).  Both carry the events sent, the backoff
sleeps performed (in seconds), and the value of the
consecutive-failure counter at each agent spawn. -/
inductive InnerResult where
  | done (out : AgentOutput) (cf : Nat) (events : List Event)
      (sleeps : List Nat) (spawnCfs : List Nat)
  | stop (outcome : Outcome) (events : List Event)
      (sleeps : List Nat) (spawnCfs : List Nat)
  deriving Repr, DecidableEq

/-- Prefix bookkeeping onto an `InnerResult`. -/
def InnerResult.prepend (ev : List Event) (sl : List Nat) (sp : List Nat) :
    InnerResult → InnerResult
  | .done o c e s p => .done o c (ev ++ e) (sl ++ s) (sp ++ p)
  | .stop o e s p => .stop o (ev ++ e) (sl ++ s) (sp ++ p)

/-- Source `runner.rs`, `Runner::run` lines 272–340: the inner
attempt-with-retry loop for iteration `iteration`, starting from retry
attempt `retry_attempt` and consecutive-failure count
`consecutive_failures`.  Before each attempt the circuit breaker is
checked (threshold nonzero and counter at or above it stops the run);
then the agent is spawned.  Success resets the counter and yields the
output; a retryable failure increments both counters and either
abandons the iteration with `AgentOutput::empty` once the retry counter
exceeds `max_retries`, or emits `RetryScheduled`, sleeps the backoff,
and retries; any other failure stops the run with a fatal error.  The
recursion is fuel-indexed; `none` means the fuel ran out (shown
impossible for fuel `max_retries + 1 - retry_attempt`). -/
def innerLoop (cfg : Config) (w : World) (iteration : Nat) :
    Nat → Nat → Nat → Option InnerResult
  | 0, _, _ => none
  | fuel + 1, retry_attempt, consecutive_failures =>
      if 0 < cfg.circuit_breaker_threshold ∧
          cfg.circuit_breaker_threshold ≤ consecutive_failures then
        some (.stop
          (.stopped iteration (.circuitBreakerTriggered consecutive_failures))
          [Event.stopped iteration (.circuitBreakerTriggered consecutive_failures)]
          [] [])
      else
        match (agentRun cfg.agent (w.script iteration retry_attempt)).1 with
        | .ok out =>
            some (.done out 0 (agentRun cfg.agent (w.script iteration retry_attempt)).2
              [] [consecutive_failures])
        | .error (.agentErrorDetected _) | .error (.agentTimeout _) =>
            if cfg.max_retries < retry_attempt + 1 then
              some (.done AgentOutput.empty (consecutive_failures + 1)
                (agentRun cfg.agent (w.script iteration retry_attempt)).2
                [] [consecutive_failures])
            else
              match innerLoop cfg w iteration fuel (retry_attempt + 1)
                  (consecutive_failures + 1) with
              | none => none
              | some r =>
                  some (r.prepend
                    ((agentRun cfg.agent (w.script iteration retry_attempt)).2 ++
                      [Event.retryScheduled (calculate_backoff (retry_attempt + 1) cfg)
                        (retry_attempt + 1) cfg.max_retries])
                    [calculate_backoff (retry_attempt + 1) cfg] [consecutive_failures])
        | .error e =>
            some (.stop
              (.stopped iteration (.fatalError ("agent failed: " ++ e.display)))
              ((agentRun cfg.agent (w.script iteration retry_attempt)).2 ++
                [Event.stopped iteration (.fatalError ("agent failed: " ++ e.display))])
              [] [consecutive_failures])

/-- Observable trace of one run: the outcome returned by `Runner::run`,
the events sent (in order), the backoff sleeps grouped per iteration
(one list per iteration whose attempt loop ran), and the value of the
consecutive-failure counter at each agent spawn. -/
structure RunResult where
  outcome : Outcome
  events : List Event
  iterSleeps : List (List Nat)
  spawnCfs : List Nat
  deriving Repr, DecidableEq

/-- Result of one pass through the body of the supervision loop, after
the top-of-loop cancellation and max-iterations checks: either the run
halts with an outcome, or it proceeds to the next iteration with an
updated consecutive-failure counter.  Both carry the events sent, the
per-iteration backoff-sleep lists, and the consecutive-failure counter
value at each agent spawn. -/
inductive IterStep where
  | halt (outcome : Outcome) (events : List Event)
      (sleeps : List (List Nat)) (spawns : List Nat)
  | next (cf : Nat) (events : List Event)
      (sleeps : List (List Nat)) (spawns : List Nat)
  deriving Repr, DecidableEq

/-- The events of one full iteration pass up to and including
`IterationFinished`: `IterationStarted`, the before-agent PRD events,
the attempt-loop events `ev`, the after-agent PRD events, and
`IterationFinished` with the disjunction of the two completion flags. -/
def iterTailEvents (cfg : Config) (w : World) (it : Nat) (out : AgentOutput)
    (ev : List Event) : List Event :=
  Event.iterationStarted it cfg.max_iterations ::
    (prdCheck cfg (w.prdBefore it) false).2 ++ ev ++
    (prdCheck cfg (w.prdAfter it) true).2 ++
    [Event.iterationFinished it
      (out.contains cfg.completion_phrase || (prdCheck cfg (w.prdAfter it) true).1)]

/-- Source `runner.rs`, `Runner::run` lines 202–440: the body of one loop pass
for (already incremented) iteration number `it`, in source order:
`IterationStarted`; prompt resolution (fatal on failure); PRD check
before the agent (immediate completion crediting only previous
iterations); the attempt-with-retry loop; the completion-phrase test on
the combined output; the PRD check after the agent; `IterationFinished`;
the completion decision (`Both` / `AllStoriesComplete` /
`CompletionPhraseDetected` in that precedence); the inter-iteration
delay (not an event); and the post-delay cancellation check.  `none`
only on inner-loop fuel exhaustion (shown impossible). -/
def iterBody (cfg : Config) (w : World) (it consecutive_failures : Nat) :
    Option IterStep :=
  match w.promptResult it with
  | .error e =>
      some (.halt (.stopped it (.fatalError ("failed to read prompt: " ++ e)))
        (Event.iterationStarted it cfg.max_iterations ::
          [Event.stopped it (.fatalError ("failed to read prompt: " ++ e))]) [] [])
  | .ok _prompt =>
      if (prdCheck cfg (w.prdBefore it) false).1 then
        some (.halt (.completed (it - 1) .allStoriesComplete)
          (Event.iterationStarted it cfg.max_iterations ::
            (prdCheck cfg (w.prdBefore it) false).2 ++
            [Event.completed (it - 1) .allStoriesComplete]) [] [])
      else
        match innerLoop cfg w it (cfg.max_retries + 1) 0 consecutive_failures with
        | none => none
        | some (.stop outcome ev sl sp) =>
            some (.halt outcome
              (Event.iterationStarted it cfg.max_iterations ::
                (prdCheck cfg (w.prdBefore it) false).2 ++ ev) [sl] sp)
        | some (.done out cf ev sl sp) =>
            if out.contains cfg.completion_phrase && (prdCheck cfg (w.prdAfter it) true).1 then
              some (.halt (.completed it .both)
                (iterTailEvents cfg w it out ev ++ [Event.completed it .both]) [sl] sp)
            else if (prdCheck cfg (w.prdAfter it) true).1 then
              some (.halt (.completed it .allStoriesComplete)
                (iterTailEvents cfg w it out ev ++
                  [Event.completed it .allStoriesComplete]) [sl] sp)
            else if out.contains cfg.completion_phrase then
              some (.halt (.completed it .completionPhraseDetected)
                (iterTailEvents cfg w it out ev ++
                  [Event.completed it .completionPhraseDetected]) [sl] sp)
            else if w.cancelAfterDelay it then
              some (.halt (.stopped it .cancelled)
                (iterTailEvents cfg w it out ev ++ [Event.stopped it .cancelled]) [sl] sp)
            else
              some (.next cf (iterTailEvents cfg w it out ev) [sl] sp)

/-- Source `runner.rs`, `Runner::run` lines 171–441: the outer supervision
loop, entered with iteration counter `iteration` and consecutive-failure
counter `consecutive_failures`: cancellation check, max-iterations
check, then one `iterBody` pass, then (in the `next` case) the next
loop pass.  Fuel-indexed; `none` means the fuel ran out (shown
impossible for fuel `max_iterations + 1 - iteration`). -/
def runFrom (cfg : Config) (w : World) :
    Nat → Nat → Nat → Option RunResult
  | 0, _, _ => none
  | fuel + 1, iteration, consecutive_failures =>
      if w.cancelTop iteration then
        some { outcome := .stopped iteration .cancelled
               events := [Event.stopped iteration .cancelled]
               iterSleeps := [], spawnCfs := [] }
      else if cfg.max_iterations ≤ iteration then
        some { outcome := .stopped iteration .maxIterations
               events := [Event.stopped iteration .maxIterations]
               iterSleeps := [], spawnCfs := [] }
      else
        match iterBody cfg w (iteration + 1) consecutive_failures with
        | none => none
        | some (.halt outcome ev sl sp) =>
            some { outcome := outcome, events := ev, iterSleeps := sl, spawnCfs := sp }
        | some (.next cf ev sl sp) =>
            match runFrom cfg w fuel (iteration + 1) cf with
            | none => none
            | some r =>
                some { outcome := r.outcome
                       events := ev ++ r.events
                       iterSleeps := sl ++ r.iterSleeps
                       spawnCfs := sp ++ r.spawnCfs }

/-- Source `runner.rs`: `Runner::run` — sends `Started`, then enters the loop
with both counters at zero. -/
def run (cfg : Config) (w : World) : Option RunResult :=
  match runFrom cfg w (cfg.max_iterations + 1) 0 0 with
  | none => none
  | some r => some { r with events := Event.started cfg.max_iterations :: r.events }

theorem innerLoop_isSome (cfg : Config) (w : World) (it : Nat) :
    ∀ fuel ra cf, cfg.max_retries + 1 ≤ fuel + ra → ra ≤ cfg.max_retries →
      (innerLoop cfg w it fuel ra cf).isSome := by
  intro fuel
  induction fuel with
  | zero => intro ra cf h1 h2; omega
  | succ f ih =>
    intro ra cf h1 h2
    rw [innerLoop]
    split
    · simp
    · cases hc : (agentRun cfg.agent (w.script it ra)).1 with
      | ok out => simp
      | error e =>
        cases e with
        | agentNotFound c => simp
        | agentError m => simp
        | agentErrorDetected p =>
          simp only
          split
          · simp
          · have hs := ih (ra + 1) (cf + 1) (by omega) (by omega)
            cases hi : innerLoop cfg w it f (ra + 1) (cf + 1) with
            | none => rw [hi] at hs; simp at hs
            | some r => simp
        | agentTimeout t =>
          simp only
          split
          · simp
          · have hs := ih (ra + 1) (cf + 1) (by omega) (by omega)
            cases hi : innerLoop cfg w it f (ra + 1) (cf + 1) with
            | none => rw [hi] at hs; simp at hs
            | some r => simp

theorem iterBody_isSome (cfg : Config) (w : World) (it cf : Nat) :
    (iterBody cfg w it cf).isSome := by
  rw [iterBody]
  cases hp : w.promptResult it with
  | error e => simp
  | ok p =>
    simp only
    split
    · simp
    · have hb := innerLoop_isSome cfg w it (cfg.max_retries + 1) 0 cf
        (by omega) (by omega)
      cases hi : innerLoop cfg w it (cfg.max_retries + 1) 0 cf with
      | none => rw [hi] at hb; simp at hb
      | some r =>
        cases r with
        | stop o ev sl sp => simp
        | done out c ev sl sp =>
          simp only
          split
          · simp
          · split
            · simp
            · split
              · simp
              · split
                · simp
                · simp

theorem runFrom_isSome (cfg : Config) (w : World) :
    ∀ fuel i cf, cfg.max_iterations + 1 ≤ fuel + i → i ≤ cfg.max_iterations →
      (runFrom cfg w fuel i cf).isSome := by
  intro fuel
  induction fuel with
  | zero => intro i cf h1 h2; omega
  | succ f ih =>
    intro i cf h1 h2
    rw [runFrom]
    split
    · simp
    · split
      · simp
      · have hb := iterBody_isSome cfg w (i + 1) cf
        cases hbn : iterBody cfg w (i + 1) cf with
        | none => rw [hbn] at hb; simp at hb
        | some s =>
          cases s with
          | halt o ev sl sp => simp
          | next cf' ev sl sp =>
            have hr := ih (i + 1) cf' (by omega) (by omega)
            cases hrn : runFrom cfg w f (i + 1) cf' with
            | none => rw [hrn] at hr; simp at hr
            | some r => simp [hrn]

theorem run_isSome (cfg : Config) (w : World) : (run cfg w).isSome := by
  rw [run]
  have ht := runFrom_isSome cfg w (cfg.max_iterations + 1) 0 0 (by omega) (by omega)
  cases h : runFrom cfg w (cfg.max_iterations + 1) 0 0 with
  | none => rw [h] at ht; simp at ht
  | some r => simp

/-- Source `Runner::run` as a total function on the model (its partiality was
only fuel bookkeeping, discharged by `run_isSome`). -/
def runR (cfg : Config) (w : World) : RunResult :=
  (run cfg w).get (run_isSome cfg w)

theorem run_eq (cfg : Config) (w : World) : run cfg w = some (runR cfg w) :=
  (Option.some_get (run_isSome cfg w)).symm

/-- Terminal events: `Completed` and `Stopped` are the two run-ending
event variants. -/
def Event.isTerminal : Event → Bool
  | .completed _ _ => true
  | .stopped _ _ => true
  | _ => false

/-- The terminal event mirroring an outcome (same variant, same
iteration count, same reason). -/
def terminalEvent : Outcome → Event
  | .completed n re => .completed n re
  | .stopped n re => .stopped n re

/-- The completion decision's external-state flag in the words of the
spec: the reloaded checklist's every-story-passes predicate, false when
no checklist is configured or it fails to load. -/
def specExternalAfter (cfg : Config) (w : World) (it : Nat) : Bool :=
  match cfg.prd_path with
  | none => false
  | some _ =>
      match w.prdAfter it with
      | .ok prd => prd.stories.all (fun s => s.passes)
      | .error _ => false

theorem prdCheck_after_eq_spec (cfg : Config) (w : World) (it : Nat) :
    (prdCheck cfg (w.prdAfter it) true).1 = specExternalAfter cfg w it := by
  rw [prdCheck.eq_def, specExternalAfter]
  cases cfg.prd_path with
  | none => rfl
  | some p =>
    cases w.prdAfter it with
    | ok prd => rfl
    | error e => rfl

theorem runFrom_cancelTop (cfg : Config) (w : World) (fuel i cf : Nat)
    (hc : w.cancelTop i = true) :
    runFrom cfg w (fuel + 1) i cf =
      some { outcome := .stopped i .cancelled
             events := [Event.stopped i .cancelled]
             iterSleeps := [], spawnCfs := [] } := by
  rw [runFrom]
  simp [hc]

theorem runFrom_maxIter (cfg : Config) (w : World) (fuel i cf : Nat)
    (hc : w.cancelTop i = false) (hm : cfg.max_iterations ≤ i) :
    runFrom cfg w (fuel + 1) i cf =
      some { outcome := .stopped i .maxIterations
             events := [Event.stopped i .maxIterations]
             iterSleeps := [], spawnCfs := [] } := by
  rw [runFrom]
  simp [hc, hm]

theorem runFrom_halt (cfg : Config) (w : World) (fuel i cf : Nat)
    (o : Outcome) (ev : List Event) (sl : List (List Nat)) (sp : List Nat)
    (hc : w.cancelTop i = false) (hm : i < cfg.max_iterations)
    (hb : iterBody cfg w (i + 1) cf = some (.halt o ev sl sp)) :
    runFrom cfg w (fuel + 1) i cf =
      some { outcome := o, events := ev, iterSleeps := sl, spawnCfs := sp } := by
  have hm' : ¬ cfg.max_iterations ≤ i := by omega
  rw [runFrom]
  simp [hc, hm', hb]

theorem runFrom_next (cfg : Config) (w : World) (fuel i cf : Nat)
    (cf' : Nat) (ev : List Event) (sl : List (List Nat)) (sp : List Nat)
    (hc : w.cancelTop i = false) (hm : i < cfg.max_iterations)
    (hb : iterBody cfg w (i + 1) cf = some (.next cf' ev sl sp)) :
    runFrom cfg w (fuel + 1) i cf =
      (runFrom cfg w fuel (i + 1) cf').map (fun r =>
        { outcome := r.outcome, events := ev ++ r.events
          iterSleeps := sl ++ r.iterSleeps, spawnCfs := sp ++ r.spawnCfs }) := by
  have hm' : ¬ cfg.max_iterations ≤ i := by omega
  rw [runFrom]
  simp only [hc, Bool.false_eq_true, if_false, hm', if_false, hb]
  cases runFrom cfg w fuel (i + 1) cf' with
  | none => rfl
  | some r => rfl

theorem runR_def (cfg : Config) (w : World) (r : RunResult)
    (h : runFrom cfg w (cfg.max_iterations + 1) 0 0 = some r) :
    runR cfg w = { r with events := Event.started cfg.max_iterations :: r.events } := by
  have h1 : run cfg w =
      some { r with events := Event.started cfg.max_iterations :: r.events } := by
    rw [run, h]
  have h2 := run_eq cfg w
  rw [h1] at h2
  exact (Option.some.inj h2).symm

/-- C2: for every iteration that reaches the completion check (the
prompt resolved, the checklist was not already complete, and the
attempt loop handed back an output), the decision is: phrase-detected
is the literal case-sensitive untrimmed substring test of the
configured completion phrase on the combined transcript;
external-state-after is the reloaded checklist's every-story-passes
predicate (false when unconfigured or failing to load); the run
terminates with `Both` when both hold, `AllStoriesComplete` when only
the external state holds, `CompletionPhraseDetected` when only the
phrase holds — each reported with the current (just-run) iteration
count `i + 1` — and continues otherwise. -/
theorem C2_completion_decision (cfg : Config) (w : World) (i cf fuel : Nat)
    (s : String) (out : AgentOutput) (cf2 : Nat) (ev : List Event)
    (sl : List Nat) (sp : List Nat)
    (hc : w.cancelTop i = false) (hm : i < cfg.max_iterations)
    (hp : w.promptResult (i + 1) = Except.ok s)
    (hb : (prdCheck cfg (w.prdBefore (i + 1)) false).1 = false)
    (hi : innerLoop cfg w (i + 1) (cfg.max_retries + 1) 0 cf =
      some (.done out cf2 ev sl sp)) :
    (strContains out.combined cfg.completion_phrase = true →
      specExternalAfter cfg w (i + 1) = true →
      ∀ r, runFrom cfg w (fuel + 1) i cf = some r →
        r.outcome = .completed (i + 1) .both) ∧
    (strContains out.combined cfg.completion_phrase = false →
      specExternalAfter cfg w (i + 1) = true →
      ∀ r, runFrom cfg w (fuel + 1) i cf = some r →
        r.outcome = .completed (i + 1) .allStoriesComplete) ∧
    (strContains out.combined cfg.completion_phrase = true →
      specExternalAfter cfg w (i + 1) = false →
      ∀ r, runFrom cfg w (fuel + 1) i cf = some r →
        r.outcome = .completed (i + 1) .completionPhraseDetected) ∧
    (strContains out.combined cfg.completion_phrase = false →
      specExternalAfter cfg w (i + 1) = false →
      w.cancelAfterDelay (i + 1) = false →
      ∀ r, runFrom cfg w (fuel + 1) i cf = some r →
        ∃ r', runFrom cfg w fuel (i + 1) cf2 = some r' ∧
          r.outcome = r'.outcome) := by
  refine ⟨?_, ?_, ?_, ?_⟩
  · intro h1 h2 r hr
    have hpa : (prdCheck cfg (w.prdAfter (i + 1)) true).1 = true := by
      rw [prdCheck_after_eq_spec]; exact h2
    have hbody : iterBody cfg w (i + 1) cf =
        some (.halt (.completed (i + 1) .both)
          (iterTailEvents cfg w (i + 1) out ev ++ [Event.completed (i + 1) .both])
          [sl] sp) := by
      rw [iterBody, hp]
      simp [hb, hi, AgentOutput.contains, h1, hpa]
    have h3 := runFrom_halt cfg w fuel i cf _ _ _ _ hc hm hbody
    rw [h3] at hr
    cases Option.some.inj hr
    rfl
  · intro h1 h2 r hr
    have hpa : (prdCheck cfg (w.prdAfter (i + 1)) true).1 = true := by
      rw [prdCheck_after_eq_spec]; exact h2
    have hbody : iterBody cfg w (i + 1) cf =
        some (.halt (.completed (i + 1) .allStoriesComplete)
          (iterTailEvents cfg w (i + 1) out ev ++
            [Event.completed (i + 1) .allStoriesComplete]) [sl] sp) := by
      rw [iterBody, hp]
      simp [hb, hi, AgentOutput.contains, h1, hpa]
    have h3 := runFrom_halt cfg w fuel i cf _ _ _ _ hc hm hbody
    rw [h3] at hr
    cases Option.some.inj hr
    rfl
  · intro h1 h2 r hr
    have hpa : (prdCheck cfg (w.prdAfter (i + 1)) true).1 = false := by
      rw [prdCheck_after_eq_spec]; exact h2
    have hbody : iterBody cfg w (i + 1) cf =
        some (.halt (.completed (i + 1) .completionPhraseDetected)
          (iterTailEvents cfg w (i + 1) out ev ++
            [Event.completed (i + 1) .completionPhraseDetected]) [sl] sp) := by
      rw [iterBody, hp]
      simp [hb, hi, AgentOutput.contains, h1, hpa]
    have h3 := runFrom_halt cfg w fuel i cf _ _ _ _ hc hm hbody
    rw [h3] at hr
    cases Option.some.inj hr
    rfl
  · intro h1 h2 h3 r hr
    have hpa : (prdCheck cfg (w.prdAfter (i + 1)) true).1 = false := by
      rw [prdCheck_after_eq_spec]; exact h2
    have hbody : iterBody cfg w (i + 1) cf =
        some (.next cf2 (iterTailEvents cfg w (i + 1) out ev) [sl] sp) := by
      rw [iterBody, hp]
      simp [hb, hi, AgentOutput.contains, h1, hpa, h3]
    have h4 := runFrom_next cfg w fuel i cf _ _ _ _ hc hm hbody
    rw [h4] at hr
    cases hrec : runFrom cfg w fuel (i + 1) cf2 with
    | none => rw [hrec] at hr; exact Option.noConfusion hr
    | some r' =>
      rw [hrec] at hr
      simp only [Option.map_some'] at hr
      refine ⟨r', rfl, ?_⟩
      cases Option.some.inj hr
      rfl

theorem innerLoop_break (cfg : Config) (w : World) (it fuel ra cf : Nat)
    (hcb : 0 < cfg.circuit_breaker_threshold ∧
      cfg.circuit_breaker_threshold ≤ cf) :
    innerLoop cfg w it (fuel + 1) ra cf =
      some (.stop (.stopped it (.circuitBreakerTriggered cf))
        [Event.stopped it (.circuitBreakerTriggered cf)] [] []) := by
  rw [innerLoop, if_pos hcb]

theorem innerLoop_ok (cfg : Config) (w : World) (it fuel ra cf : Nat)
    (out : AgentOutput)
    (hcb : ¬(0 < cfg.circuit_breaker_threshold ∧
      cfg.circuit_breaker_threshold ≤ cf))
    (hok : (agentRun cfg.agent (w.script it ra)).1 = Except.ok out) :
    innerLoop cfg w it (fuel + 1) ra cf =
      some (.done out 0 (agentRun cfg.agent (w.script it ra)).2 [] [cf]) := by
  rw [innerLoop, if_neg hcb, hok]

theorem innerLoop_retry (cfg : Config) (w : World) (it fuel ra cf : Nat)
    (hcb : ¬(0 < cfg.circuit_breaker_threshold ∧
      cfg.circuit_breaker_threshold ≤ cf))
    (hret : retryableResult (agentRun cfg.agent (w.script it ra)).1 = true)
    (hra : ra + 1 ≤ cfg.max_retries) :
    innerLoop cfg w it (fuel + 1) ra cf =
      (innerLoop cfg w it fuel (ra + 1) (cf + 1)).map
        (InnerResult.prepend
          ((agentRun cfg.agent (w.script it ra)).2 ++
            [Event.retryScheduled (calculate_backoff (ra + 1) cfg) (ra + 1)
              cfg.max_retries])
          [calculate_backoff (ra + 1) cfg] [cf]) := by
  rw [innerLoop, if_neg hcb]
  have hra' : ¬ cfg.max_retries < ra + 1 := by omega
  cases hc : (agentRun cfg.agent (w.script it ra)).1 with
  | ok out => rw [hc] at hret; simp [retryableResult] at hret
  | error e =>
    cases e with
    | agentErrorDetected p =>
      simp only [if_neg hra']
      cases hx : innerLoop cfg w it fuel (ra + 1) (cf + 1) with
      | none => simp
      | some r => simp
    | agentTimeout t =>
      simp only [if_neg hra']
      cases hx : innerLoop cfg w it fuel (ra + 1) (cf + 1) with
      | none => simp
      | some r => simp
    | agentNotFound c => rw [hc] at hret; simp [retryableResult] at hret
    | agentError m => rw [hc] at hret; simp [retryableResult] at hret

theorem innerLoop_exhaust (cfg : Config) (w : World) (it fuel ra cf : Nat)
    (hcb : ¬(0 < cfg.circuit_breaker_threshold ∧
      cfg.circuit_breaker_threshold ≤ cf))
    (hret : retryableResult (agentRun cfg.agent (w.script it ra)).1 = true)
    (hra : cfg.max_retries < ra + 1) :
    innerLoop cfg w it (fuel + 1) ra cf =
      some (.done AgentOutput.empty (cf + 1)
        (agentRun cfg.agent (w.script it ra)).2 [] [cf]) := by
  rw [innerLoop, if_neg hcb]
  cases hc : (agentRun cfg.agent (w.script it ra)).1 with
  | ok out => rw [hc] at hret; simp [retryableResult] at hret
  | error e =>
    cases e with
    | agentErrorDetected p => simp only [if_pos hra]
    | agentTimeout t => simp only [if_pos hra]
    | agentNotFound c => rw [hc] at hret; simp [retryableResult] at hret
    | agentError m => rw [hc] at hret; simp [retryableResult] at hret

theorem innerLoop_fatal (cfg : Config) (w : World) (it fuel ra cf : Nat)
    (e : AgentErr)
    (hcb : ¬(0 < cfg.circuit_breaker_threshold ∧
      cfg.circuit_breaker_threshold ≤ cf))
    (herr : (agentRun cfg.agent (w.script it ra)).1 = Except.error e)
    (hnr : retryableResult (Except.error e) = false) :
    innerLoop cfg w it (fuel + 1) ra cf =
      some (.stop (.stopped it (.fatalError ("agent failed: " ++ e.display)))
        ((agentRun cfg.agent (w.script it ra)).2 ++
          [Event.stopped it (.fatalError ("agent failed: " ++ e.display))])
        [] [cf]) := by
  rw [innerLoop, if_neg hcb, herr]
  cases e with
  | agentErrorDetected p => simp [retryableResult] at hnr
  | agentTimeout t => simp [retryableResult] at hnr
  | agentNotFound c => rfl
  | agentError m => rfl

/-- C4: the attempt-with-retry loop's failure classification.  A
retryable failure (detected error pattern or timeout) increments the
retry-attempt and consecutive-failure counters and is retried while the
retry budget lasts (conjunct 1); once the retry-attempt counter exceeds
`max_retries` the iteration is abandoned with an empty `AgentResult`
and handed onward (as a `done` step, which the loop feeds to the
completion check rather than ending the run) (conjunct 2); every
non-retryable `Agent::run` failure — agent-not-found and every other
spawn/wait failure — immediately ends the run with
`Stopped(FatalError)` regardless of the remaining retry budget
(conjunct 3); and the empty `AgentResult` has all text fields empty and
no exit code (conjunct 4). -/
theorem C4_failure_classification (cfg : Config) (w : World) (it fuel ra cf : Nat) :
    (retryableResult (agentRun cfg.agent (w.script it ra)).1 = true →
      ¬(0 < cfg.circuit_breaker_threshold ∧ cfg.circuit_breaker_threshold ≤ cf) →
      ra + 1 ≤ cfg.max_retries →
      innerLoop cfg w it (fuel + 1) ra cf =
        (innerLoop cfg w it fuel (ra + 1) (cf + 1)).map
          (InnerResult.prepend
            ((agentRun cfg.agent (w.script it ra)).2 ++
              [Event.retryScheduled (calculate_backoff (ra + 1) cfg) (ra + 1)
                cfg.max_retries])
            [calculate_backoff (ra + 1) cfg] [cf])) ∧
    (retryableResult (agentRun cfg.agent (w.script it ra)).1 = true →
      ¬(0 < cfg.circuit_breaker_threshold ∧ cfg.circuit_breaker_threshold ≤ cf) →
      cfg.max_retries < ra + 1 →
      innerLoop cfg w it (fuel + 1) ra cf =
        some (.done AgentOutput.empty (cf + 1)
          (agentRun cfg.agent (w.script it ra)).2 [] [cf])) ∧
    (∀ e, (agentRun cfg.agent (w.script it ra)).1 = Except.error e →
      retryableResult (Except.error e) = false →
      ¬(0 < cfg.circuit_breaker_threshold ∧ cfg.circuit_breaker_threshold ≤ cf) →
      innerLoop cfg w it (fuel + 1) ra cf =
        some (.stop (.stopped it (.fatalError ("agent failed: " ++ e.display)))
          ((agentRun cfg.agent (w.script it ra)).2 ++
            [Event.stopped it (.fatalError ("agent failed: " ++ e.display))])
          [] [cf])) ∧
    (AgentOutput.empty.stdout = "" ∧ AgentOutput.empty.stderr = "" ∧
      AgentOutput.empty.combined = "" ∧ AgentOutput.empty.exit_code = none) := by
  refine ⟨?_, ?_, ?_, ⟨rfl, rfl, rfl, rfl⟩⟩
  · intro hret hcb hra
    exact innerLoop_retry cfg w it fuel ra cf hcb hret hra
  · intro hret hcb hra
    exact innerLoop_exhaust cfg w it fuel ra cf hcb hret hra
  · intro e herr hnr hcb
    exact innerLoop_fatal cfg w it fuel ra cf e hcb herr hnr

/-- C6: if the configured checklist loads and is already complete
before the agent runs, the run finishes immediately as
`Completed(AllStoriesComplete)` with the iteration count excluding the
iteration about to start (conjunct 1, count `i` for the pass whose
incremented number is `i + 1`), and no agent process is spawned from
that point on; in particular when this happens before the first agent
invocation the whole run completes with `iterations = 0` and an empty
spawn record (conjunct 2). -/
theorem C6_prd_complete_before (cfg : Config) (w : World) :
    (∀ fuel i cf s path prd,
      w.cancelTop i = false → i < cfg.max_iterations →
      w.promptResult (i + 1) = Except.ok s →
      cfg.prd_path = some path →
      w.prdBefore (i + 1) = Except.ok prd →
      prd.is_complete = true →
      ∀ r, runFrom cfg w (fuel + 1) i cf = some r →
        r.outcome = .completed i .allStoriesComplete ∧ r.spawnCfs = []) ∧
    (∀ s path prd,
      w.cancelTop 0 = false → 0 < cfg.max_iterations →
      w.promptResult 1 = Except.ok s →
      cfg.prd_path = some path →
      w.prdBefore 1 = Except.ok prd →
      prd.is_complete = true →
      (runR cfg w).outcome = .completed 0 .allStoriesComplete ∧
        (runR cfg w).spawnCfs = []) := by
  have main : ∀ fuel i cf s path prd,
      w.cancelTop i = false → i < cfg.max_iterations →
      w.promptResult (i + 1) = Except.ok s →
      cfg.prd_path = some path →
      w.prdBefore (i + 1) = Except.ok prd →
      prd.is_complete = true →
      ∀ r, runFrom cfg w (fuel + 1) i cf = some r →
        r.outcome = .completed i .allStoriesComplete ∧ r.spawnCfs = [] := by
    intro fuel i cf s path prd hc hm hp hpath hload hcomp r hr
    have hb1 : (prdCheck cfg (w.prdBefore (i + 1)) false).1 = true := by
      rw [prdCheck.eq_def, hpath, hload]
      exact hcomp
    have hbody : iterBody cfg w (i + 1) cf =
        some (.halt (.completed i .allStoriesComplete)
          (Event.iterationStarted (i + 1) cfg.max_iterations ::
            (prdCheck cfg (w.prdBefore (i + 1)) false).2 ++
            [Event.completed i .allStoriesComplete]) [] []) := by
      rw [iterBody, hp]
      simp [hb1]
    have h3 := runFrom_halt cfg w fuel i cf _ _ _ _ hc hm hbody
    rw [h3] at hr
    cases Option.some.inj hr
    exact ⟨rfl, rfl⟩
  refine ⟨main, ?_⟩
  intro s path prd hc hm hp hpath hload hcomp
  have ht := runFrom_isSome cfg w (cfg.max_iterations + 1) 0 0 (by omega) (by omega)
  cases hrf : runFrom cfg w (cfg.max_iterations + 1) 0 0 with
  | none => rw [hrf] at ht; simp at ht
  | some r =>
    have h1 := main cfg.max_iterations 0 0 s path prd hc hm hp hpath hload hcomp r hrf
    rw [runR_def cfg w r hrf]
    exact h1

/-- C8: cancellation is observed only at the top of the loop (before
the iteration counter is incremented) and after the inter-iteration
delay.  A flag set at loop entry stops the run with the iteration count
as observed so far, not counting the aborted iteration (conjunct 1);
set before the first iteration the outcome is `Stopped(Cancelled)` with
`iterations = 0` (conjunct 2); set at the post-delay checkpoint the run
stops with the just-finished iteration's count, not incremented for the
aborted next iteration (conjunct 3). -/
theorem C8_cancellation (cfg : Config) (w : World) :
    (∀ fuel i cf, w.cancelTop i = true →
      runFrom cfg w (fuel + 1) i cf =
        some { outcome := .stopped i .cancelled
               events := [Event.stopped i .cancelled]
               iterSleeps := [], spawnCfs := [] }) ∧
    (w.cancelTop 0 = true → (runR cfg w).outcome = .stopped 0 .cancelled) ∧
    (∀ fuel i cf s out cf2 ev sl sp,
      w.cancelTop i = false → i < cfg.max_iterations →
      w.promptResult (i + 1) = Except.ok s →
      (prdCheck cfg (w.prdBefore (i + 1)) false).1 = false →
      innerLoop cfg w (i + 1) (cfg.max_retries + 1) 0 cf =
        some (.done out cf2 ev sl sp) →
      strContains out.combined cfg.completion_phrase = false →
      specExternalAfter cfg w (i + 1) = false →
      w.cancelAfterDelay (i + 1) = true →
      ∀ r, runFrom cfg w (fuel + 1) i cf = some r →
        r.outcome = .stopped (i + 1) .cancelled) := by
  refine ⟨fun fuel i cf hc => runFrom_cancelTop cfg w fuel i cf hc, ?_, ?_⟩
  · intro hc
    have h1 := runFrom_cancelTop cfg w cfg.max_iterations 0 0 hc
    rw [runR_def cfg w _ h1]
  · intro fuel i cf s out cf2 ev sl sp hc hm hp hb hi h1 h2 h3 r hr
    have hpa : (prdCheck cfg (w.prdAfter (i + 1)) true).1 = false := by
      rw [prdCheck_after_eq_spec]; exact h2
    have hbody : iterBody cfg w (i + 1) cf =
        some (.halt (.stopped (i + 1) .cancelled)
          (iterTailEvents cfg w (i + 1) out ev ++ [Event.stopped (i + 1) .cancelled])
          [sl] sp) := by
      rw [iterBody, hp]
      simp [hb, hi, AgentOutput.contains, h1, hpa, h3]
    have h4 := runFrom_halt cfg w fuel i cf _ _ _ _ hc hm hbody
    rw [h4] at hr
    cases Option.some.inj hr
    rfl

theorem agentRun_events_nonterminal (a : Agent) (s : AgentScript) :
    ∀ e ∈ (agentRun a s).2, e.isTerminal = false := by
  have hline : ∀ (lines : List (Bool × String)),
      ∀ e ∈ lines.map lineEvent, Event.isTerminal e = false := by
    intro lines x hx
    obtain ⟨l, _, rfl⟩ := List.mem_map.mp hx
    rfl
  cases s with
  | spawnNotFound => intro e he; simp [agentRun] at he
  | spawnFail m => intro e he; simp [agentRun] at he
  | runs lines wait =>
    intro e he
    simp only [agentRun] at he
    cases hd : linesDetect a.error_patterns lines with
    | some p =>
      rw [hd] at he
      simp only [List.mem_append, List.mem_singleton] at he
      rcases he with he | rfl
      · exact hline lines e he
      · rfl
    | none =>
      rw [hd] at he
      cases wait with
      | timedOut =>
        simp only [List.mem_append, List.mem_singleton] at he
        rcases he with he | rfl
        · exact hline lines e he
        · rfl
      | waitErr m => exact hline lines e he
      | exited code =>
        simp only [List.mem_append, List.mem_singleton] at he
        rcases he with he | rfl
        · exact hline lines e he
        · rfl

theorem prdCheck_events_nonterminal (cfg : Config) (l : Except String Prd)
    (after : Bool) : ∀ e ∈ (prdCheck cfg l after).2, e.isTerminal = false := by
  intro e he
  rw [prdCheck.eq_def] at he
  cases hpath : cfg.prd_path with
  | none => rw [hpath] at he; simp at he
  | some p =>
    rw [hpath] at he
    cases l with
    | ok prd =>
      simp only [List.mem_singleton] at he
      subst he; rfl
    | error m =>
      simp only [List.mem_singleton] at he
      subst he; rfl

theorem iterTail_events_nonterminal (cfg : Config) (w : World) (it : Nat)
    (out : AgentOutput) (ev : List Event)
    (h : ∀ e ∈ ev, e.isTerminal = false) :
    ∀ e ∈ iterTailEvents cfg w it out ev, e.isTerminal = false := by
  intro e he
  rw [iterTailEvents] at he
  simp only [List.cons_append, List.mem_cons, List.mem_append,
    List.mem_singleton] at he
  rcases he with rfl | he
  · rfl
  rcases he with ((hb | hv) | ha) | (rfl | h0)
  · exact prdCheck_events_nonterminal cfg _ false e hb
  · exact h e hv
  · exact prdCheck_events_nonterminal cfg _ true e ha
  · rfl
  · exact absurd h0 (List.not_mem_nil e)

theorem innerLoop_events (cfg : Config) (w : World) (it : Nat) :
    ∀ fuel ra cf r, innerLoop cfg w it fuel ra cf = some r →
      (∀ out c ev sl sp, r = .done out c ev sl sp →
        ∀ e ∈ ev, e.isTerminal = false) ∧
      (∀ o ev sl sp, r = .stop o ev sl sp →
        ∃ pre, ev = pre ++ [terminalEvent o] ∧ ∀ e ∈ pre, e.isTerminal = false) := by
  intro fuel
  induction fuel with
  | zero => intro ra cf r h; rw [innerLoop] at h; exact Option.noConfusion h
  | succ f ih =>
    intro ra cf r h
    have hcall := agentRun_events_nonterminal cfg.agent (w.script it ra)
    rw [innerLoop] at h
    split at h
    · cases Option.some.inj h
      refine ⟨?_, ?_⟩
      · intro out c ev sl sp hd; exact absurd hd (by simp)
      · intro o ev sl sp hs
        cases hs
        exact ⟨[], rfl, by simp⟩
    · split at h
      · -- success
        cases Option.some.inj h
        refine ⟨?_, ?_⟩
        · intro out' c ev sl sp hd
          cases hd
          exact hcall
        · intro o ev sl sp hs; exact absurd hs (by simp)
      · -- retryable failure
        split at h
        · -- budget exhausted
          cases Option.some.inj h
          refine ⟨?_, ?_⟩
          · intro out' c ev sl sp hd
            cases hd
            exact hcall
          · intro o ev sl sp hs; exact absurd hs (by simp)
        · -- retry
          split at h
          · exact Option.noConfusion h
          · rename_i r' hx
            cases Option.some.inj h
            have hr' := ih (ra + 1) (cf + 1) r' hx
            cases r' with
            | done o2 c2 e2 s2 p2 =>
              refine ⟨?_, ?_⟩
              · intro out' c ev sl sp hd
                rw [InnerResult.prepend] at hd
                cases hd
                intro e he
                simp only [List.mem_append, List.mem_singleton] at he
                rcases he with (he | rfl) | he
                · exact hcall e he
                · rfl
                · exact (hr'.1 o2 c2 e2 s2 p2 rfl) e he
              · intro o ev sl sp hs
                rw [InnerResult.prepend] at hs
                exact absurd hs (by simp)
            | stop o2 e2 s2 p2 =>
              refine ⟨?_, ?_⟩
              · intro out' c ev sl sp hd
                rw [InnerResult.prepend] at hd
                exact absurd hd (by simp)
              · intro o ev sl sp hs
                rw [InnerResult.prepend] at hs
                cases hs
                obtain ⟨pre, hpre, hnt⟩ := hr'.2 o2 e2 s2 p2 rfl
                refine ⟨((agentRun cfg.agent (w.script it ra)).2 ++
                  [Event.retryScheduled (calculate_backoff (ra + 1) cfg) (ra + 1)
                    cfg.max_retries]) ++ pre, ?_, ?_⟩
                · simp [hpre, List.append_assoc]
                · intro e he
                  simp only [List.mem_append, List.mem_singleton] at he
                  rcases he with (he | rfl) | he
                  · exact hcall e he
                  · rfl
                  · exact hnt e he
      · -- retryable failure
        split at h
        · -- budget exhausted
          cases Option.some.inj h
          refine ⟨?_, ?_⟩
          · intro out' c ev sl sp hd
            cases hd
            exact hcall
          · intro o ev sl sp hs; exact absurd hs (by simp)
        · -- retry
          split at h
          · exact Option.noConfusion h
          · rename_i r' hx
            cases Option.some.inj h
            have hr' := ih (ra + 1) (cf + 1) r' hx
            cases r' with
            | done o2 c2 e2 s2 p2 =>
              refine ⟨?_, ?_⟩
              · intro out' c ev sl sp hd
                rw [InnerResult.prepend] at hd
                cases hd
                intro e he
                simp only [List.mem_append, List.mem_singleton] at he
                rcases he with (he | rfl) | he
                · exact hcall e he
                · rfl
                · exact (hr'.1 o2 c2 e2 s2 p2 rfl) e he
              · intro o ev sl sp hs
                rw [InnerResult.prepend] at hs
                exact absurd hs (by simp)
            | stop o2 e2 s2 p2 =>
              refine ⟨?_, ?_⟩
              · intro out' c ev sl sp hd
                rw [InnerResult.prepend] at hd
                exact absurd hd (by simp)
              · intro o ev sl sp hs
                rw [InnerResult.prepend] at hs
                cases hs
                obtain ⟨pre, hpre, hnt⟩ := hr'.2 o2 e2 s2 p2 rfl
                refine ⟨((agentRun cfg.agent (w.script it ra)).2 ++
                  [Event.retryScheduled (calculate_backoff (ra + 1) cfg) (ra + 1)
                    cfg.max_retries]) ++ pre, ?_, ?_⟩
                · simp [hpre, List.append_assoc]
                · intro e he
                  simp only [List.mem_append, List.mem_singleton] at he
                  rcases he with (he | rfl) | he
                  · exact hcall e he
                  · rfl
                  · exact hnt e he
      · -- fatal failure
        cases Option.some.inj h
        refine ⟨?_, ?_⟩
        · intro out' c' ev sl sp hd; exact absurd hd (by simp)
        · intro o ev sl sp hs
          cases hs
          exact ⟨(agentRun cfg.agent (w.script it ra)).2, rfl, hcall⟩

theorem iterBody_events (cfg : Config) (w : World) (it cf : Nat) (st : IterStep)
    (h : iterBody cfg w it cf = some st) :
    (∀ cf' ev sl sp, st = .next cf' ev sl sp → ∀ e ∈ ev, e.isTerminal = false) ∧
    (∀ o ev sl sp, st = .halt o ev sl sp →
      ∃ pre, ev = pre ++ [terminalEvent o] ∧ ∀ e ∈ pre, e.isTerminal = false) := by
  have hsingle : ∀ e, e ∈ [Event.iterationStarted it cfg.max_iterations] →
      Event.isTerminal e = false := by
    intro e he
    rw [List.mem_singleton] at he
    subst he; rfl
  rw [iterBody] at h
  split at h
  · -- prompt read failure
    cases Option.some.inj h
    refine ⟨?_, ?_⟩
    · intro cf' ev sl sp hn; exact absurd hn (by simp)
    · intro o ev sl sp hs
      cases hs
      exact ⟨[Event.iterationStarted it cfg.max_iterations], rfl, hsingle⟩
  · split at h
    · -- PRD already complete before the agent
      cases Option.some.inj h
      refine ⟨?_, ?_⟩
      · intro cf' ev sl sp hn; exact absurd hn (by simp)
      · intro o ev sl sp hs
        cases hs
        refine ⟨Event.iterationStarted it cfg.max_iterations ::
          (prdCheck cfg (w.prdBefore it) false).2, by simp [terminalEvent], ?_⟩
        intro e he
        rcases List.mem_cons.mp he with rfl | he
        · rfl
        · exact prdCheck_events_nonterminal cfg _ false e he
    · -- inner loop ran
      split at h
      · exact Option.noConfusion h
      · -- inner loop stopped the run
        rename_i o2 ev2 sl2 sp2 hx
        cases Option.some.inj h
        obtain ⟨pre, hpre, hnt⟩ :=
          (innerLoop_events cfg w it (cfg.max_retries + 1) 0 cf _ hx).2 o2 ev2 sl2 sp2 rfl
        refine ⟨?_, ?_⟩
        · intro cf' ev sl sp hn; exact absurd hn (by simp)
        · intro o ev sl sp hs
          cases hs
          refine ⟨Event.iterationStarted it cfg.max_iterations ::
            (prdCheck cfg (w.prdBefore it) false).2 ++ pre,
            by simp [hpre, List.append_assoc], ?_⟩
          intro e he
          rcases List.mem_cons.mp he with rfl | he
          · rfl
          rcases List.mem_append.mp he with he | he
          · exact prdCheck_events_nonterminal cfg _ false e he
          · exact hnt e he
      · -- inner loop handed back an output
        rename_i out2 cf2 ev2 sl2 sp2 hx
        have hinner : ∀ e ∈ ev2, e.isTerminal = false :=
          (innerLoop_events cfg w it (cfg.max_retries + 1) 0 cf _ hx).1
            out2 cf2 ev2 sl2 sp2 rfl
        have htail := iterTail_events_nonterminal cfg w it out2 ev2 hinner
        split at h
        · cases Option.some.inj h
          refine ⟨?_, ?_⟩
          · intro cf' ev sl sp hn; exact absurd hn (by simp)
          · intro o ev sl sp hs
            cases hs
            exact ⟨iterTailEvents cfg w it out2 ev2, rfl, htail⟩
        · split at h
          · cases Option.some.inj h
            refine ⟨?_, ?_⟩
            · intro cf' ev sl sp hn; exact absurd hn (by simp)
            · intro o ev sl sp hs
              cases hs
              exact ⟨iterTailEvents cfg w it out2 ev2, rfl, htail⟩
          · split at h
            · cases Option.some.inj h
              refine ⟨?_, ?_⟩
              · intro cf' ev sl sp hn; exact absurd hn (by simp)
              · intro o ev sl sp hs
                cases hs
                exact ⟨iterTailEvents cfg w it out2 ev2, rfl, htail⟩
            · split at h
              · cases Option.some.inj h
                refine ⟨?_, ?_⟩
                · intro cf' ev sl sp hn; exact absurd hn (by simp)
                · intro o ev sl sp hs
                  cases hs
                  exact ⟨iterTailEvents cfg w it out2 ev2, rfl, htail⟩
              · cases Option.some.inj h
                refine ⟨?_, ?_⟩
                · intro cf' ev sl sp hn
                  cases hn
                  exact htail
                · intro o ev sl sp hs; exact absurd hs (by simp)

theorem runFrom_events (cfg : Config) (w : World) :
    ∀ fuel i cf r, runFrom cfg w fuel i cf = some r →
      ∃ pre, r.events = pre ++ [terminalEvent r.outcome] ∧
        ∀ e ∈ pre, e.isTerminal = false := by
  intro fuel
  induction fuel with
  | zero => intro i cf r h; rw [runFrom] at h; exact Option.noConfusion h
  | succ f ih =>
    intro i cf r h
    rw [runFrom] at h
    split at h
    · cases Option.some.inj h
      exact ⟨[], rfl, by simp⟩
    · split at h
      · cases Option.some.inj h
        exact ⟨[], rfl, by simp⟩
      · split at h
        · exact Option.noConfusion h
        · rename_i o2 ev2 sl2 sp2 hbd
          cases Option.some.inj h
          exact (iterBody_events cfg w (i + 1) cf _ hbd).2 o2 ev2 sl2 sp2 rfl
        · rename_i cf2 ev2 sl2 sp2 hbd
          split at h
          · exact Option.noConfusion h
          · rename_i r' hrec
            cases Option.some.inj h
            obtain ⟨pre, hpre, hnt⟩ := ih (i + 1) cf2 r' hrec
            have hev := (iterBody_events cfg w (i + 1) cf _ hbd).1 cf2 ev2 sl2 sp2 rfl
            refine ⟨ev2 ++ pre, by simp [hpre, List.append_assoc], ?_⟩
            intro e he
            rcases List.mem_append.mp he with he | he
            · exact hev e he
            · exact hnt e he

/-- C9: every run emits exactly one terminal event (`Completed` or
`Stopped`): the event trace decomposes as a prefix of non-terminal
events followed by a single terminal event, that terminal event is the
last event of the run, and its variant, iteration count and reason
payload are exactly those of the `Outcome` value the supervision loop
returns (`terminalEvent` is the identity translation between the two,
and is the only terminal event in the trace). -/
theorem C9_terminal_event (cfg : Config) (w : World) :
    (∀ o : Outcome, (terminalEvent o).isTerminal = true) ∧
    ∃ pre, (runR cfg w).events = pre ++ [terminalEvent (runR cfg w).outcome] ∧
      ∀ e ∈ pre, e.isTerminal = false := by
  refine ⟨fun o => by cases o <;> rfl, ?_⟩
  have ht := runFrom_isSome cfg w (cfg.max_iterations + 1) 0 0 (by omega) (by omega)
  cases hrf : runFrom cfg w (cfg.max_iterations + 1) 0 0 with
  | none => rw [hrf] at ht; simp at ht
  | some r =>
    obtain ⟨pre, hpre, hnt⟩ := runFrom_events cfg w (cfg.max_iterations + 1) 0 0 r hrf
    rw [runR_def cfg w r hrf]
    refine ⟨Event.started cfg.max_iterations :: pre, by simp [hpre], ?_⟩
    intro e he
    rcases List.mem_cons.mp he with rfl | he
    · rfl
    · exact hnt e he

/-- The spawn records of an inner-loop result. -/
def InnerResult.spawns : InnerResult → List Nat
  | .done _ _ _ _ sp => sp
  | .stop _ _ _ sp => sp

/-- The backoff sleeps of an inner-loop result. -/
def InnerResult.sleepsOf : InnerResult → List Nat
  | .done _ _ _ sl _ => sl
  | .stop _ _ sl _ => sl

theorem strContains_empty_left (p : String) (h : p ≠ "") :
    strContains "" p = false := by
  rw [strContains]
  cases hp : p.toList with
  | nil =>
    exfalso
    exact h (String.toList_inj.mp (by rw [hp]; rfl))
  | cons c cs => rfl

theorem prdCheck_none (cfg : Config) (l : Except String Prd) (a : Bool)
    (h : cfg.prd_path = none) : prdCheck cfg l a = (false, []) := by
  rw [prdCheck.eq_def, h]

theorem empty_not_contains (cfg : Config) (h : cfg.completion_phrase ≠ "") :
    AgentOutput.empty.contains cfg.completion_phrase = false :=
  strContains_empty_left cfg.completion_phrase h

theorem innerLoop_spawns_lt (cfg : Config) (w : World) (it : Nat) :
    ∀ fuel ra cf r, innerLoop cfg w it fuel ra cf = some r →
      0 < cfg.circuit_breaker_threshold →
      ∀ c ∈ r.spawns, c < cfg.circuit_breaker_threshold := by
  intro fuel
  induction fuel with
  | zero => intro ra cf r h; rw [innerLoop] at h; exact Option.noConfusion h
  | succ f ih =>
    intro ra cf r h hT
    rw [innerLoop] at h
    split at h
    · cases Option.some.inj h
      intro c hc; simp [InnerResult.spawns] at hc
    · rename_i hcb
      have hcf : cf < cfg.circuit_breaker_threshold := by
        rcases Decidable.not_and_iff_or_not.mp hcb with h1 | h2
        · omega
        · omega
      split at h
      · cases Option.some.inj h
        intro c hc
        simp [InnerResult.spawns] at hc
        omega
      · split at h
        · cases Option.some.inj h
          intro c hc
          simp [InnerResult.spawns] at hc
          omega
        · split at h
          · exact Option.noConfusion h
          · rename_i r' hx
            cases Option.some.inj h
            intro c hc
            have hr' := ih (ra + 1) (cf + 1) r' hx hT
            cases r' with
            | done o2 c2 e2 s2 p2 =>
              rw [InnerResult.prepend] at hc
              simp only [InnerResult.spawns, List.mem_append,
                List.mem_singleton] at hc
              rcases hc with rfl | hc
              · omega
              · exact hr' c hc
            | stop o2 e2 s2 p2 =>
              rw [InnerResult.prepend] at hc
              simp only [InnerResult.spawns, List.mem_append,
                List.mem_singleton] at hc
              rcases hc with rfl | hc
              · omega
              · exact hr' c hc
      · split at h
        · cases Option.some.inj h
          intro c hc
          simp [InnerResult.spawns] at hc
          omega
        · split at h
          · exact Option.noConfusion h
          · rename_i r' hx
            cases Option.some.inj h
            intro c hc
            have hr' := ih (ra + 1) (cf + 1) r' hx hT
            cases r' with
            | done o2 c2 e2 s2 p2 =>
              rw [InnerResult.prepend] at hc
              simp only [InnerResult.spawns, List.mem_append,
                List.mem_singleton] at hc
              rcases hc with rfl | hc
              · omega
              · exact hr' c hc
            | stop o2 e2 s2 p2 =>
              rw [InnerResult.prepend] at hc
              simp only [InnerResult.spawns, List.mem_append,
                List.mem_singleton] at hc
              rcases hc with rfl | hc
              · omega
              · exact hr' c hc
      · cases Option.some.inj h
        intro c hc
        simp [InnerResult.spawns] at hc
        omega

theorem innerLoop_sleeps_len (cfg : Config) (w : World) (it : Nat) :
    ∀ fuel ra cf r, innerLoop cfg w it fuel ra cf = some r →
      r.sleepsOf.length ≤ cfg.max_retries - ra := by
  intro fuel
  induction fuel with
  | zero => intro ra cf r h; rw [innerLoop] at h; exact Option.noConfusion h
  | succ f ih =>
    intro ra cf r h
    rw [innerLoop] at h
    split at h
    · cases Option.some.inj h; simp [InnerResult.sleepsOf]
    · split at h
      · cases Option.some.inj h; simp [InnerResult.sleepsOf]
      · split at h
        · cases Option.some.inj h; simp [InnerResult.sleepsOf]
        · split at h
          · exact Option.noConfusion h
          · rename_i hra r' hx
            cases Option.some.inj h
            have hr' := ih (ra + 1) (cf + 1) r' hx
            cases r' with
            | done o2 c2 e2 s2 p2 =>
              rw [InnerResult.prepend]
              simp only [InnerResult.sleepsOf, List.length_append,
                List.length_singleton] at hr' ⊢
              omega
            | stop o2 e2 s2 p2 =>
              rw [InnerResult.prepend]
              simp only [InnerResult.sleepsOf, List.length_append,
                List.length_singleton] at hr' ⊢
              omega
      · split at h
        · cases Option.some.inj h; simp [InnerResult.sleepsOf]
        · split at h
          · exact Option.noConfusion h
          · rename_i hra r' hx
            cases Option.some.inj h
            have hr' := ih (ra + 1) (cf + 1) r' hx
            cases r' with
            | done o2 c2 e2 s2 p2 =>
              rw [InnerResult.prepend]
              simp only [InnerResult.sleepsOf, List.length_append,
                List.length_singleton] at hr' ⊢
              omega
            | stop o2 e2 s2 p2 =>
              rw [InnerResult.prepend]
              simp only [InnerResult.sleepsOf, List.length_append,
                List.length_singleton] at hr' ⊢
              omega
      · cases Option.some.inj h; simp [InnerResult.sleepsOf]

/-- The spawn records of one loop-pass step. -/
def IterStep.spawns : IterStep → List Nat
  | .halt _ _ _ sp => sp
  | .next _ _ _ sp => sp

/-- The per-iteration sleep lists of one loop-pass step. -/
def IterStep.sleeps : IterStep → List (List Nat)
  | .halt _ _ sl _ => sl
  | .next _ _ sl _ => sl

theorem iterBody_spawns_lt (cfg : Config) (w : World) (it cf : Nat)
    (st : IterStep) (h : iterBody cfg w it cf = some st)
    (hT : 0 < cfg.circuit_breaker_threshold) :
    ∀ c ∈ st.spawns, c < cfg.circuit_breaker_threshold := by
  rw [iterBody] at h
  split at h
  · cases Option.some.inj h; intro c hc; simp [IterStep.spawns] at hc
  · split at h
    · cases Option.some.inj h; intro c hc; simp [IterStep.spawns] at hc
    · split at h
      · exact Option.noConfusion h
      · rename_i o2 ev2 sl2 sp2 hx
        cases Option.some.inj h
        intro c hc
        exact innerLoop_spawns_lt cfg w it (cfg.max_retries + 1) 0 cf _ hx hT c hc
      · rename_i out2 cf2 ev2 sl2 sp2 hx
        have hsp := innerLoop_spawns_lt cfg w it (cfg.max_retries + 1) 0 cf _ hx hT
        split at h
        · cases Option.some.inj h; intro c hc; exact hsp c hc
        · split at h
          · cases Option.some.inj h; intro c hc; exact hsp c hc
          · split at h
            · cases Option.some.inj h; intro c hc; exact hsp c hc
            · split at h
              · cases Option.some.inj h; intro c hc; exact hsp c hc
              · cases Option.some.inj h; intro c hc; exact hsp c hc

theorem iterBody_sleeps_le (cfg : Config) (w : World) (it cf : Nat)
    (st : IterStep) (h : iterBody cfg w it cf = some st) :
    ∀ l ∈ st.sleeps, l.length ≤ cfg.max_retries := by
  rw [iterBody] at h
  split at h
  · cases Option.some.inj h; intro l hl; simp [IterStep.sleeps] at hl
  · split at h
    · cases Option.some.inj h; intro l hl; simp [IterStep.sleeps] at hl
    · split at h
      · exact Option.noConfusion h
      · rename_i o2 ev2 sl2 sp2 hx
        cases Option.some.inj h
        intro l hl
        simp only [IterStep.sleeps, List.mem_singleton] at hl
        subst hl
        have := innerLoop_sleeps_len cfg w it (cfg.max_retries + 1) 0 cf _ hx
        simpa using this
      · rename_i out2 cf2 ev2 sl2 sp2 hx
        have hsl : sl2.length ≤ cfg.max_retries := by
          have := innerLoop_sleeps_len cfg w it (cfg.max_retries + 1) 0 cf _ hx
          simpa using this
        split at h
        · cases Option.some.inj h
          intro l hl
          simp only [IterStep.sleeps, List.mem_singleton] at hl
          subst hl; exact hsl
        · split at h
          · cases Option.some.inj h
            intro l hl
            simp only [IterStep.sleeps, List.mem_singleton] at hl
            subst hl; exact hsl
          · split at h
            · cases Option.some.inj h
              intro l hl
              simp only [IterStep.sleeps, List.mem_singleton] at hl
              subst hl; exact hsl
            · split at h
              · cases Option.some.inj h
                intro l hl
                simp only [IterStep.sleeps, List.mem_singleton] at hl
                subst hl; exact hsl
              · cases Option.some.inj h
                intro l hl
                simp only [IterStep.sleeps, List.mem_singleton] at hl
                subst hl; exact hsl

theorem runFrom_spawns_lt (cfg : Config) (w : World) :
    ∀ fuel i cf r, runFrom cfg w fuel i cf = some r →
      0 < cfg.circuit_breaker_threshold →
      ∀ c ∈ r.spawnCfs, c < cfg.circuit_breaker_threshold := by
  intro fuel
  induction fuel with
  | zero => intro i cf r h; rw [runFrom] at h; exact Option.noConfusion h
  | succ f ih =>
    intro i cf r h hT
    rw [runFrom] at h
    split at h
    · cases Option.some.inj h; intro c hc; simp at hc
    · split at h
      · cases Option.some.inj h; intro c hc; simp at hc
      · split at h
        · exact Option.noConfusion h
        · rename_i o2 ev2 sl2 sp2 hbd
          cases Option.some.inj h
          intro c hc
          exact iterBody_spawns_lt cfg w (i + 1) cf _ hbd hT c hc
        · rename_i cf2 ev2 sl2 sp2 hbd
          split at h
          · exact Option.noConfusion h
          · rename_i r' hrec
            cases Option.some.inj h
            intro c hc
            simp only [List.mem_append] at hc
            rcases hc with hc | hc
            · exact iterBody_spawns_lt cfg w (i + 1) cf _ hbd hT c hc
            · exact ih (i + 1) cf2 r' hrec hT c hc

theorem runFrom_sleeps_le (cfg : Config) (w : World) :
    ∀ fuel i cf r, runFrom cfg w fuel i cf = some r →
      ∀ l ∈ r.iterSleeps, l.length ≤ cfg.max_retries := by
  intro fuel
  induction fuel with
  | zero => intro i cf r h; rw [runFrom] at h; exact Option.noConfusion h
  | succ f ih =>
    intro i cf r h
    rw [runFrom] at h
    split at h
    · cases Option.some.inj h; intro l hl; simp at hl
    · split at h
      · cases Option.some.inj h; intro l hl; simp at hl
      · split at h
        · exact Option.noConfusion h
        · rename_i o2 ev2 sl2 sp2 hbd
          cases Option.some.inj h
          intro l hl
          exact iterBody_sleeps_le cfg w (i + 1) cf _ hbd l hl
        · rename_i cf2 ev2 sl2 sp2 hbd
          split at h
          · exact Option.noConfusion h
          · rename_i r' hrec
            cases Option.some.inj h
            intro l hl
            simp only [List.mem_append] at hl
            rcases hl with hl | hl
            · exact iterBody_sleeps_le cfg w (i + 1) cf _ hbd l hl
            · exact ih (i + 1) cf2 r' hrec l hl

theorem iterBody_innerStop (cfg : Config) (w : World) (it cf : Nat) (s : String)
    (o : Outcome) (ev : List Event) (sl : List Nat) (sp : List Nat)
    (hs : w.promptResult it = Except.ok s)
    (hb : (prdCheck cfg (w.prdBefore it) false).1 = false)
    (hx : innerLoop cfg w it (cfg.max_retries + 1) 0 cf = some (.stop o ev sl sp)) :
    iterBody cfg w it cf = some (.halt o
      (Event.iterationStarted it cfg.max_iterations ::
        (prdCheck cfg (w.prdBefore it) false).2 ++ ev) [sl] sp) := by
  rw [iterBody, hs]
  simp [hb, hx]

theorem iterBody_innerDone_next (cfg : Config) (w : World) (it cf : Nat)
    (s : String) (out : AgentOutput) (cf2 : Nat) (ev : List Event)
    (sl : List Nat) (sp : List Nat)
    (hs : w.promptResult it = Except.ok s)
    (hb : (prdCheck cfg (w.prdBefore it) false).1 = false)
    (hx : innerLoop cfg w it (cfg.max_retries + 1) 0 cf =
      some (.done out cf2 ev sl sp))
    (hpd : out.contains cfg.completion_phrase = false)
    (hpa : (prdCheck cfg (w.prdAfter it) true).1 = false)
    (hcd : w.cancelAfterDelay it = false) :
    iterBody cfg w it cf =
      some (.next cf2 (iterTailEvents cfg w it out ev) [sl] sp) := by
  rw [iterBody, hs]
  simp [hb, hx, hpd, hpa, hcd]

theorem innerLoop_alwaysFail_trip (cfg : Config) (w : World) (it : Nat)
    (hf : ∀ a, retryableResult (agentRun cfg.agent (w.script it a)).1 = true)
    (hT : 0 < cfg.circuit_breaker_threshold) :
    ∀ fuel ra cf, cfg.max_retries + 1 ≤ fuel + ra → ra ≤ cfg.max_retries →
      cf ≤ cfg.circuit_breaker_threshold →
      cfg.circuit_breaker_threshold ≤ cf + (cfg.max_retries - ra) →
      ∃ ev sl sp, innerLoop cfg w it fuel ra cf =
        some (.stop (.stopped it (.circuitBreakerTriggered
          cfg.circuit_breaker_threshold)) ev sl sp) := by
  intro fuel
  induction fuel with
  | zero => intro ra cf h1 h2 h3 h4; exact absurd h1 (by omega)
  | succ f ih =>
    intro ra cf h1 h2 h3 h4
    by_cases hcb : 0 < cfg.circuit_breaker_threshold ∧
        cfg.circuit_breaker_threshold ≤ cf
    · have hcf : cf = cfg.circuit_breaker_threshold := by omega
      subst hcf
      exact ⟨_, _, _, innerLoop_break cfg w it f ra _ hcb⟩
    · have hlt : cf < cfg.circuit_breaker_threshold := by
        rcases Decidable.not_and_iff_or_not.mp hcb with h | h <;> omega
      have hra : ra + 1 ≤ cfg.max_retries := by omega
      obtain ⟨ev, sl, sp, hrec⟩ :=
        ih (ra + 1) (cf + 1) (by omega) (by omega) (by omega) (by omega)
      rw [innerLoop_retry cfg w it f ra cf hcb (hf ra) hra, hrec]
      exact ⟨_, _, _, rfl⟩

theorem innerLoop_alwaysFail_exhaust (cfg : Config) (w : World) (it : Nat)
    (hf : ∀ a, retryableResult (agentRun cfg.agent (w.script it a)).1 = true) :
    ∀ fuel ra cf, cfg.max_retries + 1 ≤ fuel + ra → ra ≤ cfg.max_retries →
      cf + (cfg.max_retries - ra) < cfg.circuit_breaker_threshold →
      ∃ ev sl sp, innerLoop cfg w it fuel ra cf =
        some (.done AgentOutput.empty (cf + (cfg.max_retries + 1 - ra)) ev sl sp) := by
  intro fuel
  induction fuel with
  | zero => intro ra cf h1 h2 h3; exact absurd h1 (by omega)
  | succ f ih =>
    intro ra cf h1 h2 h3
    have hcb : ¬(0 < cfg.circuit_breaker_threshold ∧
        cfg.circuit_breaker_threshold ≤ cf) := by
      intro hand
      omega
    by_cases hra : ra + 1 ≤ cfg.max_retries
    · obtain ⟨ev, sl, sp, hrec⟩ := ih (ra + 1) (cf + 1) (by omega) (by omega) (by omega)
      rw [innerLoop_retry cfg w it f ra cf hcb (hf ra) hra, hrec]
      have heq : cf + 1 + (cfg.max_retries + 1 - (ra + 1)) =
          cf + (cfg.max_retries + 1 - ra) := by omega
      rw [heq]
      exact ⟨_, _, _, rfl⟩
    · rw [innerLoop_exhaust cfg w it f ra cf hcb (hf ra) (by omega)]
      have heq : cf + (cfg.max_retries + 1 - ra) = cf + 1 := by omega
      rw [heq]
      exact ⟨_, _, _, rfl⟩

theorem runFrom_alwaysFail (cfg : Config) (w : World)
    (hT : 0 < cfg.circuit_breaker_threshold)
    (hc1 : ∀ n, w.cancelTop n = false)
    (hc2 : ∀ n, w.cancelAfterDelay n = false)
    (hp : ∀ n, ∃ s, w.promptResult n = Except.ok s)
    (hprd : cfg.prd_path = none)
    (hph : cfg.completion_phrase ≠ "")
    (hf : ∀ i a, retryableResult (agentRun cfg.agent (w.script i a)).1 = true) :
    ∀ d fuel i cf, cfg.circuit_breaker_threshold - cf ≤ d →
      cf ≤ cfg.circuit_breaker_threshold →
      cfg.max_iterations + 1 ≤ fuel + i →
      i + (cfg.circuit_breaker_threshold - cf) < cfg.max_iterations →
      ∃ j r, runFrom cfg w fuel i cf = some r ∧
        r.outcome = .stopped j (.circuitBreakerTriggered
          cfg.circuit_breaker_threshold) := by
  intro d
  induction d with
  | zero =>
    intro fuel i cf h1 h2 h3 h4
    cases fuel with
    | zero => exact absurd h3 (by omega)
    | succ f =>
      obtain ⟨s, hs⟩ := hp (i + 1)
      have hb : (prdCheck cfg (w.prdBefore (i + 1)) false).1 = false := by
        rw [prdCheck_none cfg _ false hprd]
      obtain ⟨ev, sl, sp, hx⟩ :=
        innerLoop_alwaysFail_trip cfg w (i + 1) (hf (i + 1)) hT
          (cfg.max_retries + 1) 0 cf (by omega) (by omega) h2 (by omega)
      have hbody := iterBody_innerStop cfg w (i + 1) cf s _ ev sl sp hs hb hx
      have hrf := runFrom_halt cfg w f i cf _ _ _ _ (hc1 i) (by omega) hbody
      exact ⟨i + 1, _, hrf, rfl⟩
  | succ d ih =>
    intro fuel i cf h1 h2 h3 h4
    cases fuel with
    | zero => exact absurd h3 (by omega)
    | succ f =>
      obtain ⟨s, hs⟩ := hp (i + 1)
      have hb : (prdCheck cfg (w.prdBefore (i + 1)) false).1 = false := by
        rw [prdCheck_none cfg _ false hprd]
      by_cases htrip : cfg.circuit_breaker_threshold ≤ cf + cfg.max_retries
      · obtain ⟨ev, sl, sp, hx⟩ :=
          innerLoop_alwaysFail_trip cfg w (i + 1) (hf (i + 1)) hT
            (cfg.max_retries + 1) 0 cf (by omega) (by omega) h2 (by omega)
        have hbody := iterBody_innerStop cfg w (i + 1) cf s _ ev sl sp hs hb hx
        have hrf := runFrom_halt cfg w f i cf _ _ _ _ (hc1 i) (by omega) hbody
        exact ⟨i + 1, _, hrf, rfl⟩
      · obtain ⟨ev, sl, sp, hx⟩ :=
          innerLoop_alwaysFail_exhaust cfg w (i + 1) (hf (i + 1))
            (cfg.max_retries + 1) 0 cf (by omega) (by omega) (by omega)
        have hpd : AgentOutput.empty.contains cfg.completion_phrase = false :=
          empty_not_contains cfg hph
        have hpa : (prdCheck cfg (w.prdAfter (i + 1)) true).1 = false := by
          rw [prdCheck_none cfg _ true hprd]
        have hbody := iterBody_innerDone_next cfg w (i + 1) cf s _ _ ev sl sp
          hs hb hx hpd hpa (hc2 (i + 1))
        have hnext := runFrom_next cfg w f i cf _ _ _ _ (hc1 i) (by omega) hbody
        obtain ⟨j, r', hr', ho⟩ :=
          ih f (i + 1) (cf + (cfg.max_retries + 1 - 0)) (by omega) (by omega)
            (by omega) (by omega)
        rw [hnext, hr']
        exact ⟨j, _, rfl, ho⟩

/-- C1: spawn records and circuit-breaker behaviour.  Conjunct 1: with
a nonzero threshold `T`, the breaker is checked before every attempt,
so the consecutive-failure counter recorded at any agent spawn is
strictly below `T` — no process is ever spawned while the counter is at
or above `T`.  Conjunct 2: any single iteration performs at most
`max_retries` backoff sleeps.  Conjunct 3: on a successful invocation
the counter resets to zero (and every retryable failure increments it
by one, which is what drives conjunct 4).  Conjunct 4: for a run whose
agent always fails retryably (with nonzero threshold below the
iteration budget, resolvable prompts, no checklist, a nonempty
completion phrase, and no cancellation), the run stops with
`Stopped(CircuitBreakerTriggered)` carrying `consecutive_failures`
exactly `T`. -/
theorem C1_circuit_breaker (cfg : Config) (w : World) :
    (0 < cfg.circuit_breaker_threshold →
      ∀ c ∈ (runR cfg w).spawnCfs, c < cfg.circuit_breaker_threshold) ∧
    (∀ l ∈ (runR cfg w).iterSleeps, l.length ≤ cfg.max_retries) ∧
    (∀ it fuel ra cf out,
      ¬(0 < cfg.circuit_breaker_threshold ∧
        cfg.circuit_breaker_threshold ≤ cf) →
      (agentRun cfg.agent (w.script it ra)).1 = Except.ok out →
      innerLoop cfg w it (fuel + 1) ra cf =
        some (.done out 0 (agentRun cfg.agent (w.script it ra)).2 [] [cf])) ∧
    (0 < cfg.circuit_breaker_threshold →
      cfg.circuit_breaker_threshold < cfg.max_iterations →
      (∀ n, w.cancelTop n = false) →
      (∀ n, w.cancelAfterDelay n = false) →
      (∀ n, ∃ s, w.promptResult n = Except.ok s) →
      cfg.prd_path = none →
      cfg.completion_phrase ≠ "" →
      (∀ i a, retryableResult (agentRun cfg.agent (w.script i a)).1 = true) →
      ∃ j, (runR cfg w).outcome = .stopped j (.circuitBreakerTriggered
        cfg.circuit_breaker_threshold)) := by
  refine ⟨?_, ?_, ?_, ?_⟩
  · intro hT c hc
    have ht := runFrom_isSome cfg w (cfg.max_iterations + 1) 0 0 (by omega) (by omega)
    cases hrf : runFrom cfg w (cfg.max_iterations + 1) 0 0 with
    | none => rw [hrf] at ht; simp at ht
    | some r =>
      rw [runR_def cfg w r hrf] at hc
      exact runFrom_spawns_lt cfg w (cfg.max_iterations + 1) 0 0 r hrf hT c hc
  · intro l hl
    have ht := runFrom_isSome cfg w (cfg.max_iterations + 1) 0 0 (by omega) (by omega)
    cases hrf : runFrom cfg w (cfg.max_iterations + 1) 0 0 with
    | none => rw [hrf] at ht; simp at ht
    | some r =>
      rw [runR_def cfg w r hrf] at hl
      exact runFrom_sleeps_le cfg w (cfg.max_iterations + 1) 0 0 r hrf l hl
  · intro it fuel ra cf out hcb hok
    exact innerLoop_ok cfg w it fuel ra cf out hcb hok
  · intro hT hTm hc1 hc2 hp hprd hph hf
    obtain ⟨j, r, hrf, ho⟩ :=
      runFrom_alwaysFail cfg w hT hc1 hc2 hp hprd hph hf
        cfg.circuit_breaker_threshold (cfg.max_iterations + 1) 0 0
        (by omega) (by omega) (by omega) (by omega)
    refine ⟨j, ?_⟩
    rw [runR_def cfg w r hrf]
    exact ho

theorem runFrom_neverComplete (cfg : Config) (w : World)
    (hc1 : ∀ n, w.cancelTop n = false)
    (hc2 : ∀ n, w.cancelAfterDelay n = false)
    (hp : ∀ n, ∃ s, w.promptResult n = Except.ok s)
    (hprd : cfg.prd_path = none)
    (hok : ∀ i a, ∃ out, (agentRun cfg.agent (w.script i a)).1 = Except.ok out ∧
      out.contains cfg.completion_phrase = false) :
    ∀ fuel i, cfg.max_iterations + 1 ≤ fuel + i → i ≤ cfg.max_iterations →
      ∃ r, runFrom cfg w fuel i 0 = some r ∧
        r.outcome = .stopped cfg.max_iterations .maxIterations := by
  intro fuel
  induction fuel with
  | zero => intro i h1 h2; exact absurd h1 (by omega)
  | succ f ih =>
    intro i h1 h2
    by_cases hi : cfg.max_iterations ≤ i
    · have hieq : i = cfg.max_iterations := by omega
      subst hieq
      exact ⟨_, runFrom_maxIter cfg w f _ 0 (hc1 _) (le_refl _), rfl⟩
    · obtain ⟨s, hs⟩ := hp (i + 1)
      obtain ⟨out, hok1, hok2⟩ := hok (i + 1) 0
      have hb : (prdCheck cfg (w.prdBefore (i + 1)) false).1 = false := by
        rw [prdCheck_none cfg _ false hprd]
      have hcb : ¬(0 < cfg.circuit_breaker_threshold ∧
          cfg.circuit_breaker_threshold ≤ 0) := by
        intro hand; omega
      have hx := innerLoop_ok cfg w (i + 1) cfg.max_retries 0 0 out hcb hok1
      have hpa : (prdCheck cfg (w.prdAfter (i + 1)) true).1 = false := by
        rw [prdCheck_none cfg _ true hprd]
      have hbody := iterBody_innerDone_next cfg w (i + 1) 0 s out 0 _ _ _
        hs hb hx hok2 hpa (hc2 (i + 1))
      have hnext := runFrom_next cfg w f i 0 _ _ _ _ (hc1 i) (by omega) hbody
      obtain ⟨r', hr', ho⟩ := ih (i + 1) (by omega) (by omega)
      rw [hnext, hr']
      exact ⟨_, rfl, ho⟩

/-- C3: with `max_iterations = N` and an agent that always succeeds but
never satisfies any completion condition (no fatal error, no
cancellation, no circuit-breaker stop, no checklist), the run
terminates with `Stopped(MaxIterations)` and reported iterations
exactly `N` — never `N + 1`, because the max-iterations check precedes
the counter increment. -/
theorem C3_max_iterations (cfg : Config) (w : World)
    (hc1 : ∀ n, w.cancelTop n = false)
    (hc2 : ∀ n, w.cancelAfterDelay n = false)
    (hp : ∀ n, ∃ s, w.promptResult n = Except.ok s)
    (hprd : cfg.prd_path = none)
    (hok : ∀ i a, ∃ out, (agentRun cfg.agent (w.script i a)).1 = Except.ok out ∧
      out.contains cfg.completion_phrase = false) :
    (runR cfg w).outcome = .stopped cfg.max_iterations .maxIterations := by
  obtain ⟨r, hrf, ho⟩ := runFrom_neverComplete cfg w hc1 hc2 hp hprd hok
    (cfg.max_iterations + 1) 0 (by omega) (by omega)
  rw [runR_def cfg w r hrf]
  exact ho

theorem charsContain_nil_pat : ∀ l : List Char, charsContain l [] = true
  | [] => rfl
  | _ :: _ => rfl

/-- C10: the empty completion phrase is a substring of every transcript
(conjunct 1, including the empty transcript of an abandoned iteration),
so a run configured with the empty phrase that reaches its first
completion check — the checklist not already complete and the attempt
loop handing back any output, even the empty abandoned one — terminates
on iteration 1 with reason `CompletionPhraseDetected` or `Both`, never
reaching max iterations (conjunct 2). -/
theorem C10_empty_phrase (cfg : Config) (w : World) :
    (∀ s : String, strContains s "" = true) ∧
    (∀ s out cf2 ev sl sp,
      cfg.completion_phrase = "" →
      w.cancelTop 0 = false → 0 < cfg.max_iterations →
      w.promptResult 1 = Except.ok s →
      (prdCheck cfg (w.prdBefore 1) false).1 = false →
      innerLoop cfg w 1 (cfg.max_retries + 1) 0 0 =
        some (.done out cf2 ev sl sp) →
      (runR cfg w).outcome = .completed 1 .both ∨
        (runR cfg w).outcome = .completed 1 .completionPhraseDetected) := by
  have hall : ∀ s : String, strContains s "" = true := by
    intro s
    rw [strContains]
    exact charsContain_nil_pat s.toList
  refine ⟨hall, ?_⟩
  intro s out cf2 ev sl sp hph hc hm hp hb hi
  have hpd : out.contains cfg.completion_phrase = true := by
    rw [AgentOutput.contains, hph]
    exact hall out.combined
  by_cases hpa : (prdCheck cfg (w.prdAfter 1) true).1 = true
  · left
    have hbody : iterBody cfg w 1 0 =
        some (.halt (.completed 1 .both)
          (iterTailEvents cfg w 1 out ev ++ [Event.completed 1 .both]) [sl] sp) := by
      rw [iterBody, hp]
      simp [hb, hi, hpd, hpa]
    have hrf := runFrom_halt cfg w cfg.max_iterations 0 0 _ _ _ _ hc hm hbody
    rw [runR_def cfg w _ hrf]
  · right
    have hpa' : (prdCheck cfg (w.prdAfter 1) true).1 = false := by
      revert hpa
      cases (prdCheck cfg (w.prdAfter 1) true).1 <;> simp
    have hbody : iterBody cfg w 1 0 =
        some (.halt (.completed 1 .completionPhraseDetected)
          (iterTailEvents cfg w 1 out ev ++
            [Event.completed 1 .completionPhraseDetected]) [sl] sp) := by
      rw [iterBody, hp]
      simp [hb, hi, hpd, hpa']
    have hrf := runFrom_halt cfg w cfg.max_iterations 0 0 _ _ _ _ hc hm hbody
    rw [runR_def cfg w _ hrf]

theorem ratTruncToNat_eq_floor (q : ℚ) (h : 0 ≤ q) :
    ratTruncToNat q = (⌊q⌋).toNat := by
  rw [ratTruncToNat, Rat.floor_def]
  congr 1
  have hnum : 0 ≤ q.num := Rat.num_nonneg.mpr h
  obtain ⟨m, hm⟩ := Int.eq_ofNat_of_zero_le hnum
  rw [hm]
  rfl

/-- The configuration of the spec's second backoff example:
`initial = 10`, `multiplier = 1.5`. -/
def backoffCfgB : Config :=
  { Config.base with initial_backoff_secs := 10, backoff_multiplier := 3 / 2 }

/-- C5: backoff is a deterministic function of the attempt number.
Conjunct 1: for every attempt `k ≥ 1` (and nonnegative multiplier),
`calculate_backoff` equals `floor(initial_backoff × multiplier^(k-1))`
whole seconds.  Conjunct 2: the retry branch of the attempt loop sleeps
exactly `calculate_backoff (k)` seconds before retry `k = ra + 1` and
reports it in the `RetryScheduled` event.  Conjunct 3: with the default
configuration (`initial = 5`, `multiplier = 2.0`) attempts 1, 2, 3
sleep 5, 10, 20 seconds.  Conjunct 4: with `initial = 10`,
`multiplier = 1.5`, attempt 3 sleeps 22 (not 23) seconds. -/
theorem C5_backoff_formula :
    (∀ (cfg : Config) (k : Nat), 1 ≤ k → 0 ≤ cfg.backoff_multiplier →
      calculate_backoff k cfg =
        (⌊(cfg.initial_backoff_secs : ℚ) *
          cfg.backoff_multiplier ^ (k - 1)⌋).toNat) ∧
    (∀ (cfg : Config) (w : World) (it fuel ra cf : Nat),
      ¬(0 < cfg.circuit_breaker_threshold ∧
        cfg.circuit_breaker_threshold ≤ cf) →
      retryableResult (agentRun cfg.agent (w.script it ra)).1 = true →
      ra + 1 ≤ cfg.max_retries →
      innerLoop cfg w it (fuel + 1) ra cf =
        (innerLoop cfg w it fuel (ra + 1) (cf + 1)).map
          (InnerResult.prepend
            ((agentRun cfg.agent (w.script it ra)).2 ++
              [Event.retryScheduled (calculate_backoff (ra + 1) cfg) (ra + 1)
                cfg.max_retries])
            [calculate_backoff (ra + 1) cfg] [cf])) ∧
    (calculate_backoff 1 Config.base = 5 ∧ calculate_backoff 2 Config.base = 10 ∧
      calculate_backoff 3 Config.base = 20) ∧
    calculate_backoff 3 backoffCfgB = 22 := by
  have main : ∀ (cfg : Config) (k : Nat), 1 ≤ k → 0 ≤ cfg.backoff_multiplier →
      calculate_backoff k cfg =
        (⌊(cfg.initial_backoff_secs : ℚ) *
          cfg.backoff_multiplier ^ (k - 1)⌋).toNat := by
    intro cfg k hk hmul
    rw [calculate_backoff]
    exact ratTruncToNat_eq_floor _
      (mul_nonneg (Nat.cast_nonneg _) (pow_nonneg hmul _))
  refine ⟨main, ?_, ⟨?_, ?_, ?_⟩, ?_⟩
  · intro cfg w it fuel ra cf hcb hret hra
    exact innerLoop_retry cfg w it fuel ra cf hcb hret hra
  · rw [main Config.base 1 (by omega) (by norm_num [Config.base])]
    norm_num [Config.base]
    rfl
  · rw [main Config.base 2 (by omega) (by norm_num [Config.base])]
    norm_num [Config.base]
    rfl
  · rw [main Config.base 3 (by omega) (by norm_num [Config.base])]
    norm_num [Config.base]
    rfl
  · rw [main backoffCfgB 3 (by omega) (by norm_num [backoffCfgB, Config.base])]
    norm_num [backoffCfgB, Config.base]
    rfl

/-- The claim's rendering of the Process Runner's error-pattern
behaviour: as soon as a serviced line matches a configured error
substring, the process is terminated and the detected-error failure
returned, without waiting for both streams to reach end-of-input — so
no events beyond the matching line's own event and the detection event
may follow (the trace is bounded by the match position plus two). -/
def immediateKillOnDetect : Prop :=
  ∀ (a : Agent) (pre : List (Bool × String)) (l : Bool × String)
    (post : List (Bool × String)) (wait : WaitResult),
    (∃ p ∈ a.error_patterns, strContains l.2 p = true) →
    (agentRun a (.runs (pre ++ l :: post) wait)).2.length ≤ pre.length + 2

/-- A one-pattern agent used to exhibit the drain-then-kill behaviour. -/
def c7Agent : Agent :=
  { command := "c"
    args := []
    error_patterns := ["ERR"]
    timeout_secs := 60 }

/-- C7 counterexample: an agent with error pattern `ERR` whose first
line matches and which then produces one more line.  The read loop
services the second line (and emits its event) after the error was
observed, so the process was not terminated as soon as the condition
was observed: the run's event trace has three events, exceeding the
immediate-kill bound. -/
theorem C7_counterexample : ¬ immediateKillOnDetect := by
  intro h
  have h2 := h c7Agent [] (false, "ERR") [(false, "tail")] (.exited (some 0))
    ⟨"ERR", by decide, by decide⟩
  revert h2
  decide

/-- C7 (amended): a matching line records the detected-error condition
without interrupting the read loop; the process is killed and the
detected-error failure (carrying the last recorded pattern) returned
only after both streams reach end-of-input — every line's event
precedes the detection event — and before the exit-status wait phase
(whose fate is irrelevant to the result). -/
theorem C7_drain_then_kill (a : Agent) (lines : List (Bool × String))
    (wait : WaitResult) (p : String)
    (hd : linesDetect a.error_patterns lines = some p) :
    (agentRun a (.runs lines wait)).1 =
      Except.error (.agentErrorDetected p) ∧
    (agentRun a (.runs lines wait)).2 =
      lines.map lineEvent ++ [Event.agentErrorDetectedEv p] := by
  constructor <;> simp [agentRun, hd]

/-- A world whose agent always succeeds with one stdout line `hello`,
with resolvable prompts, no cancellation, and failing PRD loads. -/
def okWorld : World :=
  { cancelTop := fun _ => false
    cancelAfterDelay := fun _ => false
    promptResult := fun _ => Except.ok "p"
    prdBefore := fun _ => Except.error "no prd"
    prdAfter := fun _ => Except.error "no prd"
    script := fun _ _ => .runs [(false, "hello")] (.exited (some 0)) }

/-- A world whose agent always times out. -/
def failWorld : World :=
  { okWorld with script := fun _ _ => .runs [] .timedOut }

/-- A world whose agent command is never found. -/
def nfWorld : World :=
  { okWorld with script := fun _ _ => .spawnNotFound }

/-- A world whose cancellation flag reads true at every checkpoint. -/
def cancelWorld : World :=
  { okWorld with cancelTop := fun _ => true, cancelAfterDelay := fun _ => true }

/-- A world cancelled only at the post-delay checkpoint. -/
def cwWorld : World :=
  { okWorld with cancelAfterDelay := fun _ => true }

/-- The successful agent output of `okWorld`. -/
def helloOut : AgentOutput :=
  { stdout := "hello", stderr := "", combined := "hello", exit_code := some 0 }

def sampleStory (b : Bool) : Story :=
  { id := "1"
    title := "t"
    description := "d"
    priority := 1
    passes := b
    acceptance_criteria := []
    depends_on := [] }

def prdIncomplete : Prd :=
  { name := "n", branch_name := "b", description := "d"
    stories := [sampleStory false] }

def prdComplete : Prd :=
  { name := "n", branch_name := "b", description := "d"
    stories := [sampleStory true] }

def c1Cfg : Config :=
  { Config.base with
    max_iterations := 2
    max_retries := 0
    circuit_breaker_threshold := 1
    completion_phrase := "X" }

def cfg3 : Config :=
  { Config.base with max_iterations := 2, max_retries := 0, completion_phrase := "X" }

def cfg4 : Config :=
  { Config.base with max_retries := 1, completion_phrase := "X" }

def cfgC2 : Config :=
  { Config.base with
    max_iterations := 3
    max_retries := 0
    completion_phrase := "DONE"
    prd_path := some "prd.json" }

def worldC2 : World :=
  { okWorld with
    prdBefore := fun _ => Except.ok prdIncomplete
    prdAfter := fun _ => Except.ok prdComplete
    script := fun _ _ => .runs [(false, "DONE")] (.exited (some 0)) }

/-- The successful agent output of `worldC2`. -/
def c2Out : AgentOutput :=
  { stdout := "DONE", stderr := "", combined := "DONE", exit_code := some 0 }

def cfg6 : Config :=
  { Config.base with max_iterations := 2, prd_path := some "prd.json" }

def world6 : World :=
  { okWorld with prdBefore := fun _ => Except.ok prdComplete }

def cfg10 : Config :=
  { Config.base with max_iterations := 2, max_retries := 0, completion_phrase := "" }

theorem C1_circuit_breaker_witness :
    (0 : Nat) < c1Cfg.circuit_breaker_threshold ∧
    ([] : List Nat).length ≤ c1Cfg.max_retries ∧
    innerLoop c1Cfg okWorld 1 1 0 0 =
      some (.done helloOut 0 (agentRun c1Cfg.agent (okWorld.script 1 0)).2 [] [0]) ∧
    ∃ j, (runR c1Cfg failWorld).outcome =
      .stopped j (.circuitBreakerTriggered c1Cfg.circuit_breaker_threshold) := by
  refine ⟨?_, ?_, ?_, ?_⟩
  · exact (C1_circuit_breaker c1Cfg failWorld).1 (by decide) 0 (by decide)
  · exact (C1_circuit_breaker c1Cfg failWorld).2.1 [] (by decide)
  · exact (C1_circuit_breaker c1Cfg okWorld).2.2.1 1 0 0 0 helloOut
      (by decide) (by rfl)
  · exact (C1_circuit_breaker c1Cfg failWorld).2.2.2 (by decide) (by decide)
      (fun n => rfl) (fun n => rfl) (fun n => ⟨"p", rfl⟩) rfl (by decide)
      (fun i a => rfl)

theorem C2_completion_decision_witness :
    (runR cfgC2 worldC2).outcome = .completed 1 .both := by
  have happ := (C2_completion_decision cfgC2 worldC2 0 0 3 "p" c2Out 0
    [Event.agentOutputEv "DONE" false, Event.agentFinished (some 0)] [] [0]
    rfl (by decide) rfl (by decide) (by decide)).1 (by decide) (by decide)
  cases hrf : runFrom cfgC2 worldC2 (cfgC2.max_iterations + 1) 0 0 with
  | none => exact absurd hrf (by decide)
  | some r =>
    rw [runR_def cfgC2 worldC2 r hrf]
    exact happ r hrf

theorem C3_max_iterations_witness :
    (runR cfg3 okWorld).outcome = .stopped 2 .maxIterations :=
  C3_max_iterations cfg3 okWorld (fun n => rfl) (fun n => rfl)
    (fun n => ⟨"p", rfl⟩) rfl (fun i a => ⟨helloOut, rfl, by decide⟩)

theorem C4_failure_classification_witness :
    (innerLoop cfg4 failWorld 1 6 0 0 =
      (innerLoop cfg4 failWorld 1 5 1 1).map
        (InnerResult.prepend
          ((agentRun cfg4.agent (failWorld.script 1 0)).2 ++
            [Event.retryScheduled (calculate_backoff 1 cfg4) 1 cfg4.max_retries])
          [calculate_backoff 1 cfg4] [0])) ∧
    (innerLoop cfg4 failWorld 1 6 1 1 =
      some (.done AgentOutput.empty 2
        (agentRun cfg4.agent (failWorld.script 1 1)).2 [] [1])) ∧
    (innerLoop cfg4 nfWorld 1 6 0 0 =
      some (.stop (.stopped 1 (.fatalError
          ("agent failed: " ++ (AgentErr.agentNotFound "claude").display)))
        ((agentRun cfg4.agent (nfWorld.script 1 0)).2 ++
          [Event.stopped 1 (.fatalError
            ("agent failed: " ++ (AgentErr.agentNotFound "claude").display))])
        [] [0])) ∧
    (AgentOutput.empty.stdout = "" ∧ AgentOutput.empty.stderr = "" ∧
      AgentOutput.empty.combined = "" ∧ AgentOutput.empty.exit_code = none) := by
  refine ⟨?_, ?_, ?_, ?_⟩
  · exact (C4_failure_classification cfg4 failWorld 1 5 0 0).1
      (by decide) (by decide) (by decide)
  · exact (C4_failure_classification cfg4 failWorld 1 5 1 1).2.1
      (by decide) (by decide) (by decide)
  · exact (C4_failure_classification cfg4 nfWorld 1 5 0 0).2.2.1
      (AgentErr.agentNotFound "claude") (by rfl) (by decide) (by decide)
  · exact (C4_failure_classification cfg4 failWorld 1 5 0 0).2.2.2

theorem C5_backoff_formula_witness :
    (calculate_backoff 1 Config.base =
      (⌊(Config.base.initial_backoff_secs : ℚ) *
        Config.base.backoff_multiplier ^ (1 - 1)⌋).toNat) ∧
    (innerLoop cfg4 failWorld 1 6 0 0 =
      (innerLoop cfg4 failWorld 1 5 1 1).map
        (InnerResult.prepend
          ((agentRun cfg4.agent (failWorld.script 1 0)).2 ++
            [Event.retryScheduled (calculate_backoff 1 cfg4) 1 cfg4.max_retries])
          [calculate_backoff 1 cfg4] [0])) := by
  refine ⟨?_, ?_⟩
  · exact C5_backoff_formula.1 Config.base 1 (by omega)
      (by norm_num [Config.base])
  · exact C5_backoff_formula.2.1 cfg4 failWorld 1 5 0 0
      (by decide) (by decide) (by decide)

theorem C6_prd_complete_before_witness :
    (runR cfg6 world6).outcome = .completed 0 .allStoriesComplete ∧
      (runR cfg6 world6).spawnCfs = [] :=
  (C6_prd_complete_before cfg6 world6).2 "p" "prd.json" prdComplete
    rfl (by decide) rfl rfl rfl (by decide)

theorem C7_drain_then_kill_witness :
    (agentRun c7Agent (.runs [(false, "ERR"), (true, "more")] .timedOut)).1 =
      Except.error (.agentErrorDetected "ERR") ∧
    (agentRun c7Agent (.runs [(false, "ERR"), (true, "more")] .timedOut)).2 =
      ([(false, "ERR"), (true, "more")] : List (Bool × String)).map lineEvent ++
        [Event.agentErrorDetectedEv "ERR"] :=
  C7_drain_then_kill c7Agent [(false, "ERR"), (true, "more")] .timedOut "ERR"
    (by decide)

theorem C8_cancellation_witness :
    (runFrom cfg3 cancelWorld 1 0 0 =
      some { outcome := .stopped 0 .cancelled
             events := [Event.stopped 0 .cancelled]
             iterSleeps := [], spawnCfs := [] }) ∧
    (runR cfg3 cancelWorld).outcome = .stopped 0 .cancelled ∧
    (runR cfg3 cwWorld).outcome = .stopped 1 .cancelled := by
  refine ⟨?_, ?_, ?_⟩
  · exact (C8_cancellation cfg3 cancelWorld).1 0 0 0 rfl
  · exact (C8_cancellation cfg3 cancelWorld).2.1 rfl
  · have happ := (C8_cancellation cfg3 cwWorld).2.2 2 0 0 "p" helloOut 0
      [Event.agentOutputEv "hello" false, Event.agentFinished (some 0)] [] [0]
      rfl (by decide) rfl (by decide) (by decide) (by decide) (by decide) rfl
    cases hrf : runFrom cfg3 cwWorld (cfg3.max_iterations + 1) 0 0 with
    | none => exact absurd hrf (by decide)
    | some r =>
      rw [runR_def cfg3 cwWorld r hrf]
      exact happ r hrf

theorem C10_empty_phrase_witness :
    strContains "abc" "" = true ∧
    ((runR cfg10 failWorld).outcome = .completed 1 .both ∨
      (runR cfg10 failWorld).outcome = .completed 1 .completionPhraseDetected) := by
  refine ⟨(C10_empty_phrase cfg10 failWorld).1 "abc", ?_⟩
  exact (C10_empty_phrase cfg10 failWorld).2 "p" AgentOutput.empty 1
    [Event.agentTimeoutEv 900] [] [0] rfl rfl (by decide) rfl (by decide)
    (by decide)

end WigglePuppy
